import Mathlib

/-!
Verification of the smol2 protein cartoon pipeline.

This development gives a shallow embedding, in Lean 4, of the algorithmic
core of the smol2 molecular viewer (PDB parsing, secondary-structure
assignment and smoothing, B-spline curve and frame computation, and ribbon
and cartoon mesh extrusion), and proves or refutes the frozen specification
claims about it.  JavaScript numbers appearing in geometric computations are
modelled as real numbers; parsed numeric fields (where the NaN behaviour of
the source matters) are modelled as `Option ℚ` with `none` playing the role
of NaN.  Mutable in-place loops of the source are rendered as fuel-indexed
structural recursions that perform the same sequence of list updates.
-/

namespace Smol2

/-! ## Secondary-structure labels and the smoothing pass

Embeds `SecondaryStructureAnalyzer.smoothAssignments`,
`enforceMinimumLength` and `fillShortGaps` (part_002, lines 281-352).
Assignments are the three label strings used by the source.
-/

inductive Label where
  | helix
  | sheet
  | coil
deriving DecidableEq

open Label

/-- The run finalization of `enforceMinimumLength`: a completed run of
`currentRun` consecutive `ssType` labels is converted to coil when its
length is positive and below `minLength` (part_002, lines 307-312). -/
def finishRun (minLen : Nat) (run : List Label) : List Label :=
  if run.length < minLen then run.map (fun _ => Label.coil) else run

/-- The scan inside `enforceMinimumLength` (part_002, lines 294-316):
`run` is the currently accumulated maximal run of `ssType` labels; on
seeing a non-`ssType` label (or the end of the array) the run is finalized
by `finishRun`. -/
def enforceGo (ssType : Label) (minLen : Nat) (run : List Label) :
    List Label → List Label
  | [] => finishRun minLen run
  | x :: xs =>
    if x = ssType then
      enforceGo ssType minLen (run ++ [x]) xs
    else
      finishRun minLen run ++ x :: enforceGo ssType minLen [] xs

/-- `SecondaryStructureAnalyzer.enforceMinimumLength` (part_002, lines
294-316): every maximal run of `ssType` shorter than `minLen` is converted
to coil. -/
def enforceMinimumLength (ssType : Label) (minLen : Nat) (l : List Label) :
    List Label :=
  enforceGo ssType minLen [] l

/-- One step of the first loop of `fillShortGaps` (part_002, lines
319-329): a single coil at `i` flanked by equal non-coil labels at `i-1`
and `i+1` is converted to the flanking label.  Reads see earlier writes,
exactly as in the in-place source loop. -/
def fillSingleStep (l : List Label) (i : Nat) : List Label :=
  if l.getD i Label.coil = Label.coil ∧
      l.getD (i - 1) Label.coil = l.getD (i + 1) Label.coil ∧
      l.getD (i - 1) Label.coil ≠ Label.coil then
    l.set i (l.getD (i - 1) Label.coil)
  else l

/-- The first loop of `fillShortGaps` (`for i = 1; i < length - 1`),
as a fuel-indexed structural recursion; the fuel is instantiated with the
list length, which bounds the number of iterations. -/
def fillSingleAux : Nat → List Label → Nat → List Label
  | 0, l, _ => l
  | fuel + 1, l, i =>
    if i + 1 < l.length then
      fillSingleAux fuel (fillSingleStep l i) (i + 1)
    else l

def fillSingleGaps (l : List Label) : List Label :=
  fillSingleAux l.length l 1

/-- Writing `before` into the `gapSize` positions `i, i+1, ...` of the
assignment array (part_002, lines 345-349). -/
def setSeg (l : List Label) (i : Nat) : Nat → Label → List Label
  | 0, _ => l
  | g + 1, v => setSeg (l.set i v) (i + 1) g v

/-- One step of the gap-filling loop for gap size `g` (part_002, lines
331-351): when the `g` positions starting at `i` are all coil and the
labels just before and just after the gap agree and are not coil, the gap
is converted to that label. -/
def fillGapStep (g : Nat) (l : List Label) (i : Nat) : List Label :=
  if (∀ j, j < g → l.getD (i + j) Label.coil = Label.coil) ∧
      l.getD (i - 1) Label.coil = l.getD (i + g) Label.coil ∧
      l.getD (i - 1) Label.coil ≠ Label.coil then
    setSeg l i g (l.getD (i - 1) Label.coil)
  else l

/-- The inner loop of `fillShortGaps` for one gap size
(`for i = gapSize; i < length - gapSize`), fuel-indexed. -/
def fillGapAux (g : Nat) : Nat → List Label → Nat → List Label
  | 0, l, _ => l
  | fuel + 1, l, i =>
    if i + g < l.length then
      fillGapAux g fuel (fillGapStep g l i) (i + 1)
    else l

/-- The outer loop of `fillShortGaps`
(`for gapSize = 2; gapSize <= maxGapLength`), fuel-indexed. -/
def fillGapsOuter : Nat → List Label → Nat → Nat → List Label
  | 0, l, _, _ => l
  | fuel + 1, l, g, maxG =>
    if g ≤ maxG then
      fillGapsOuter fuel (fillGapAux g l.length l g) (g + 1) maxG
    else l

/-- `SecondaryStructureAnalyzer.fillShortGaps` (part_002, lines 318-352):
first fill single coil gaps, then fill coil gaps of each size from 2 up to
`maxGapLength`. -/
def fillShortGaps (l : List Label) (maxGapLength : Nat) : List Label :=
  fillGapsOuter (maxGapLength + 1) (fillSingleGaps l) 2 maxGapLength

/-- `SecondaryStructureAnalyzer.smoothAssignments` (part_002, lines
281-292): enforce the minimum helix run length 4 and sheet run length 3,
then fill coil gaps up to length 2. -/
def smoothAssignments (l : List Label) : List Label :=
  fillShortGaps
    (enforceMinimumLength Label.sheet 3 (enforceMinimumLength Label.helix 4 l)) 2

/-! ### Maximal runs -/

/-- `IsRun l s a b`: positions `a..b` of `l` form a maximal contiguous run
of the label `s`. -/
def IsRun (l : List Label) (s : Label) (a b : Nat) : Prop :=
  a ≤ b ∧ b < l.length ∧
    (∀ k, a ≤ k → k ≤ b → l.getD k Label.coil = s) ∧
    (a = 0 ∨ l.getD (a - 1) Label.coil ≠ s) ∧
    (b + 1 = l.length ∨ l.getD (b + 1) Label.coil ≠ s)

/-- `MinRuns l s m`: every maximal contiguous run of `s` in `l` has length
at least `m`. -/
def MinRuns (l : List Label) (s : Label) (m : Nat) : Prop :=
  ∀ a b, IsRun l s a b → m ≤ b + 1 - a

/-- Pointwise relation between the input and output of one enforcement
pass on label `s`: a position is either unchanged, or was `s` and became
coil. -/
def EnfRel (s : Label) (a b : Label) : Prop :=
  b = a ∨ (a = s ∧ b = Label.coil)

/-- The conjunction of the two minimum-run invariants the smoothing pass
is required to maintain. -/
def MRpair (l : List Label) : Prop :=
  MinRuns l Label.helix 4 ∧ MinRuns l Label.sheet 3

/-! ## Real 3-vectors

JavaScript numbers appearing in geometric code are modelled as real
numbers.  `Vec3` plays the role both of `BABYLON.Vector3` and of the plain
`(x, y, z)` objects used by `CartoonMath` (part_004).
-/

structure Vec3 where
  x : ℝ
  y : ℝ
  z : ℝ

noncomputable instance : Inhabited Vec3 := ⟨⟨0, 0, 0⟩⟩

namespace Vec3

noncomputable def add (a b : Vec3) : Vec3 := ⟨a.x + b.x, a.y + b.y, a.z + b.z⟩

noncomputable def sub (a b : Vec3) : Vec3 := ⟨a.x - b.x, a.y - b.y, a.z - b.z⟩

noncomputable def scale (v : Vec3) (s : ℝ) : Vec3 := ⟨v.x * s, v.y * s, v.z * s⟩

noncomputable def dot (a b : Vec3) : ℝ := a.x * b.x + a.y * b.y + a.z * b.z

noncomputable def cross (a b : Vec3) : Vec3 :=
  ⟨a.y * b.z - a.z * b.y, a.z * b.x - a.x * b.z, a.x * b.y - a.y * b.x⟩

/-- Vector magnitude (`Vector3.length()` / `CartoonMath.length`). -/
noncomputable def len (v : Vec3) : ℝ := Real.sqrt (v.x * v.x + v.y * v.y + v.z * v.z)

/-- `BABYLON.Vector3.normalize`: divides by the magnitude, leaving the
vector unchanged (in particular the zero vector stays zero) when the
magnitude is zero. -/
noncomputable def bNormalize (v : Vec3) : Vec3 :=
  if v.len = 0 then v else v.scale (1 / v.len)

/-- `CartoonMath.normalize` (part_004 lines 256-262): falls back to the
default up vector `(0,0,1)` when the magnitude is not positive. -/
noncomputable def cmNormalize (v : Vec3) : Vec3 :=
  if 0 < v.len then v.scale (1 / v.len) else ⟨0, 0, 1⟩

end Vec3

/-! ## Frenet frames and twist minimization -/

/-- The frame record produced by `CartoonMath.computeFrenetFrame`
(part_004 lines 298-355). -/
structure Frame where
  tangent : Vec3
  normal : Vec3
  binormal : Vec3

noncomputable instance : Inhabited Frame := ⟨⟨default, default, default⟩⟩

/-- The body of one iteration of `CartoonGenerator.minimizeFrameTwisting`
(pymol-cartoon-generator.js lines 332-355): flip normal and binormal
together when the normal disagrees with the previous frame's normal, then
flip the binormal alone when it disagrees with the previous binormal. -/
noncomputable def twistStep (prev f : Frame) : Frame :=
  let f1 :=
    if Vec3.dot prev.normal f.normal < 0 then
      { f with normal := f.normal.scale (-1), binormal := f.binormal.scale (-1) }
    else f
  if Vec3.dot prev.binormal f1.binormal < 0 then
    { f1 with binormal := f1.binormal.scale (-1) }
  else f1

noncomputable def twistGo (prev : Frame) : List Frame → List Frame
  | [] => []
  | f :: fs =>
    let f2 := twistStep prev f
    f2 :: twistGo f2 fs

/-- `CartoonGenerator.minimizeFrameTwisting` (pymol-cartoon-generator.js
lines 332-355), as a pure transformation of the frame list: the first
frame is left unchanged and every later frame is corrected against its
(already corrected) predecessor. -/
noncomputable def minimizeFrameTwisting : List Frame → List Frame
  | [] => []
  | f :: fs => f :: twistGo f fs

/-! ## B-spline curve evaluation (spline-math.js, `BSplineCurve`) -/

/-- Uniform cubic B-spline blend of four control points
(`evaluateBSpline`, spline-math.js lines 114-134). -/
noncomputable def evaluateBSpline (p0 p1 p2 p3 : Vec3) (t : ℝ) : Vec3 :=
  let t2 := t * t
  let t3 := t2 * t
  let w0 := (-t3 + 3 * t2 - 3 * t + 1) / 6
  let w1 := (3 * t3 - 6 * t2 + 4) / 6
  let w2 := (-t3 * 3 + 3 * t2 + 3 * t + 1) / 6
  let w3 := t3 / 6
  Vec3.add (Vec3.add (Vec3.add (p0.scale w0) (p1.scale w1)) (p2.scale w2)) (p3.scale w3)

/-- The clamping of the curve parameter into `[0, 1]`
(`getPointAt`, spline-math.js line 38). -/
noncomputable def clampT (t : ℝ) : ℝ := max 0 (min 1 t)

/-- The span index `Math.floor(t * numSpans)` for a curve with `n`
control points (`getPointAt`, line 42); `numSpans = n - degree` with
cubic degree 3. -/
noncomputable def spanOf (n : ℕ) (t : ℝ) : ℤ := ⌊clampT t * ((n : ℝ) - 3)⌋

/-- The clamped start index of the 4-control-point window
(`getPointAt`, line 46): `Math.max(0, Math.min(span, n - 4))`. -/
noncomputable def spanStartIndex (n : ℕ) (t : ℝ) : ℕ :=
  (max 0 (min (spanOf n t) ((n : ℤ) - 4))).toNat

/-- `BSplineCurve.getPointAt` (spline-math.js lines 29-53): with no
control points returns the origin; with fewer than 4 control points
returns (a clone of) the first; otherwise clamps `t`, selects the
4-point span, and evaluates the cubic B-spline blend at the local
parameter. -/
noncomputable def getPointAt (cps : List Vec3) (t : ℝ) : Vec3 :=
  if cps.length < 4 then
    if cps.length = 0 then ⟨0, 0, 0⟩ else cps.headD ⟨0, 0, 0⟩
  else
    let si := spanStartIndex cps.length t
    let localT := clampT t * ((cps.length : ℝ) - 3) - spanOf cps.length t
    evaluateBSpline (cps.getD si default) (cps.getD (si + 1) default)
      (cps.getD (si + 2) default) (cps.getD (si + 3) default) localT

/-! ## Parser residue classification and ligand bonds (spline-math.js, `PDBParser`) -/

/-- `String.prototype.toUpperCase`, modelled character-wise; the names it
is applied to (residue names, element symbols) are ASCII. -/
def jsToUpper (s : String) : String := ⟨s.data.map Char.toUpper⟩

/-- The closed residue-name set of `PDBParser.isProteinResidue`
(spline-math.js lines 820-827), exactly as written in the source --- note
that it contains the water residue name `HOH`. -/
def proteinResidueNames : List String :=
  ["ALA", "ARG", "ASN", "ASP", "CYS", "GLN", "GLU", "GLY", "HIS", "ILE",
   "LEU", "LYS", "MET", "PHE", "PRO", "SER", "THR", "TRP", "TYR", "VAL",
   "MSE", "SEP", "TPO", "PTR", "MLY", "M3L", "HOH"]

/-- `PDBParser.isProteinResidue` (spline-math.js lines 820-827). -/
def isProteinResidue (resName : String) : Bool :=
  proteinResidueNames.contains (jsToUpper resName)

/-- The water test used by `buildResidues` (spline-math.js line 525):
`resName === 'HOH' || resName === 'WAT'`. -/
def isWaterResName (resName : String) : Bool :=
  resName == "HOH" || resName == "WAT"

/-- An atom as consumed by `calculateLigandBonds`: coordinates and an
element symbol.  The source iterates over atom object references; here
bonds record the indices of their two atoms instead of the references. -/
structure LigAtom where
  x : ℝ
  y : ℝ
  z : ℝ
  element : String

noncomputable instance : Inhabited LigAtom := ⟨⟨0, 0, 0, ""⟩⟩

/-- The covalent-radius table of `calculateLigandBonds` (spline-math.js
lines 625-629).  No entry is zero, so the JavaScript `|| 0.76` fallback
fires exactly when the key is absent. -/
noncomputable def covalentRadii : List (String × ℝ) :=
  [("H", 0.31), ("C", 0.76), ("N", 0.71), ("O", 0.66), ("S", 1.05),
   ("P", 1.07), ("F", 0.57), ("CL", 1.02), ("BR", 1.20), ("I", 1.39),
   ("FE", 1.32), ("MG", 1.41), ("CA", 1.76), ("ZN", 1.22)]

/-- Radius lookup `covalentRadii[element.toUpperCase()] || 0.76`
(spline-math.js lines 642-643). -/
noncomputable def covalentRadius (element : String) : ℝ :=
  match covalentRadii.find? (fun p => p.1 == jsToUpper element) with
  | some p => p.2
  | none => 0.76

/-- The Euclidean distance computed inside the bond loop
(spline-math.js lines 636-639). -/
noncomputable def ligDistance (a1 a2 : LigAtom) : ℝ :=
  Real.sqrt ((a2.x - a1.x) * (a2.x - a1.x) + (a2.y - a1.y) * (a2.y - a1.y) +
    (a2.z - a1.z) * (a2.z - a1.z))

/-- A detected bond: the indices of its two atoms in the ligand's atom
array (standing for the object references the source stores) and their
distance. -/
structure LigBond where
  i : ℕ
  j : ℕ
  distance : ℝ

/-- `PDBParser.calculateLigandBonds` (spline-math.js lines 619-657):
all ordered pairs `i < j` are examined and a bond is emitted when the
distance is below `1.3` times the summed covalent radii and above the
hard minimum `0.4`.  (The declared `maxBondDistance = 1.8` of line 622 is
never used by the source.) -/
noncomputable def calculateLigandBonds (atoms : List LigAtom) : List LigBond :=
  (List.range atoms.length).flatMap fun i =>
    (List.range atoms.length).flatMap fun j =>
      if i < j then
        let atom1 := atoms.getD i default
        let atom2 := atoms.getD j default
        let d := ligDistance atom1 atom2
        let r1 := covalentRadius atom1.element
        let r2 := covalentRadius atom2.element
        let maxDist := (r1 + r2) * 1.3
        if d < maxDist ∧ d > 0.4 then [⟨i, j, d⟩] else []
      else []

/-! ## Finite-difference tangents and Frenet frames of the B-spline curve -/

/-- `BSplineCurve.getTangentAt` (spline-math.js lines 56-76): normalized
finite difference of `getPointAt` with step `0.001`.  The source memoizes
the result keyed by quantized `t`; the cache only stores what this
function computes, so the embedding computes it directly. -/
noncomputable def getTangentAt (cps : List Vec3) (t : ℝ) : Vec3 :=
  let t1 := max 0 (t - 0.001)
  let t2 := min 1 (t + 0.001)
  Vec3.bNormalize (Vec3.sub (getPointAt cps t2) (getPointAt cps t1))

/-- `BSplineCurve.getPerpendicularVector` (spline-math.js lines 137-153):
cross the vector with the world axis of its smallest absolute component. -/
noncomputable def getPerpendicularVector (v : Vec3) : Vec3 :=
  if |v.x| ≤ |v.y| ∧ |v.x| ≤ |v.z| then
    Vec3.bNormalize (Vec3.cross v ⟨1, 0, 0⟩)
  else if |v.y| ≤ |v.z| then
    Vec3.bNormalize (Vec3.cross v ⟨0, 1, 0⟩)
  else
    Vec3.bNormalize (Vec3.cross v ⟨0, 0, 1⟩)

/-- The frame record produced by `BSplineCurve.getFrenetFrameAt`. -/
structure FFrame where
  position : Vec3
  tangent : Vec3
  normal : Vec3
  binormal : Vec3

/-- `BSplineCurve.getFrenetFrameAt` (spline-math.js lines 79-112): tangent
by finite differences; raw normal as the difference of tangents at
`t ± 0.001`, replaced by an arbitrary perpendicular vector when its
magnitude is below `0.001`; binormal as `tangent × normal`; normal finally
recomputed as `binormal × tangent`. -/
noncomputable def getFrenetFrameAt (cps : List Vec3) (t : ℝ) : FFrame :=
  let position := getPointAt cps t
  let tangent := getTangentAt cps t
  let t1 := max 0 (t - 0.001)
  let t2 := min 1 (t + 0.001)
  let tangent1 := getTangentAt cps t1
  let tangent2 := getTangentAt cps t2
  let normalRaw := Vec3.sub tangent2 tangent1
  let normal :=
    if normalRaw.len < 0.001 then getPerpendicularVector tangent
    else Vec3.bNormalize normalRaw
  let binormal := Vec3.bNormalize (Vec3.cross tangent normal)
  let normal2 := Vec3.bNormalize (Vec3.cross binormal tangent)
  ⟨position, tangent, normal2, binormal⟩

/-- `BSplineCurve.createSmoothCurve` (spline-math.js lines 208-231): for
at least two points, two phantom control points are synthesized by linear
extrapolation scaled by the tension. -/
noncomputable def createSmoothCurve (points : List Vec3) (tension : ℝ) : List Vec3 :=
  if points.length < 2 then points
  else
    let first := points.getD 0 default
    let second := points.getD 1 default
    let phantomStart := Vec3.add first ((Vec3.sub first second).scale tension)
    let secondLast := points.getD (points.length - 2) default
    let last := points.getD (points.length - 1) default
    let phantomEnd := Vec3.add last ((Vec3.sub last secondLast).scale tension)
    phantomStart :: points ++ [phantomEnd]

/-! ## Residues as consumed by the generators

The fields of the parser's residue objects that the analyzer and the two
geometry generators read: chain id, sequence number, protein flag, the
mutable secondary-structure label, and the cached CA atom position.
-/

structure Residue where
  chainId : String
  resSeq : ℤ
  isProtein : Bool
  secondaryStructure : Label
  ca : Option Vec3

noncomputable instance : Inhabited Residue := ⟨⟨"", 0, false, Label.coil, none⟩⟩

/-- The fields of a parsed `HELIX` record used by the header assignment
pass (`PDBParser.assignFromPDBRecords`, spline-math.js lines 667-681). -/
structure HelixRecord where
  initChainId : String
  initResSeq : ℤ
  endResSeq : ℤ

/-- The helix half of `assignFromPDBRecords` (spline-math.js lines
668-681): every residue whose chain matches and whose sequence number
falls in the declared range is labeled helix. -/
noncomputable def assignHelixRecord (h : HelixRecord) (residues : List Residue) :
    List Residue :=
  residues.map fun r =>
    if r.chainId = h.initChainId ∧ h.initResSeq ≤ r.resSeq ∧ r.resSeq ≤ h.endResSeq then
      { r with secondaryStructure := Label.helix }
    else r

/-! ## The PyMOL-style cartoon generator (pymol-cartoon-generator.js, part_004) -/

/-- The `CartoonType` constants of part_004 lines 7-20. -/
inductive CartoonType where
  | AUTO
  | TUBE
  | LOOP
  | HELIX
  | SHEET
  | ARROW
  | DASH
  | PUTTY
  | SKIP
  | SKIP_HELIX
  | SKIP_SHEET
  | SKIP_LOOP
deriving DecidableEq

/-- A backbone point extracted by
`CartoonGenerator.extractBackboneCoordinates` (lines 90-109): the CA
coordinates together with the owning residue. -/
structure CPoint where
  pos : Vec3
  residue : Residue

noncomputable instance : Inhabited CPoint := ⟨⟨default, default⟩⟩

/-- `extractBackboneCoordinates`: one point per residue that has a CA
atom (no protein check in this generator). -/
noncomputable def extractBackboneCoordinates (residues : List Residue) : List CPoint :=
  residues.filterMap fun r => r.ca.map fun c => ⟨c, r⟩

/-- The label-to-cartoon-type switch of `detectSecondaryStructure` (lines
125-144).  The source switches over lowercased label strings with aliases
(`h`, `strand`, `e`, `loop`, `turn`, ...); the parser and analyzer only
ever store `helix`, `sheet` and `coil`, which map as below, and the
default case maps to `LOOP`. -/
def labelToCartoonType (l : Label) : CartoonType :=
  match l with
  | Label.helix => CartoonType.HELIX
  | Label.sheet => CartoonType.SHEET
  | Label.coil => CartoonType.LOOP

/-- One cartoon segment (consecutive backbone point pair), as built by
`detectSecondaryStructure` (lines 114-160).  Parsed residues always carry
a label (default `coil`), so the geometric auto-detection branch of line
147 is unreachable from this pipeline. -/
structure CSeg where
  point1 : CPoint
  point2 : CPoint
  cartoonType : CartoonType
  residue : Residue
  index : Nat

noncomputable def detectSegments (points : List CPoint) : List CSeg :=
  (List.range (points.length - 1)).map fun i =>
    let p1 := points.getD i default
    let p2 := points.getD (i + 1) default
    ⟨p1, p2, labelToCartoonType p1.residue.secondaryStructure, p1.residue, i⟩

/-- A group of consecutive same-type segments
(`groupSegmentsByType`, lines 213-240). -/
structure CGroup where
  cartoonType : CartoonType
  segments : List CSeg
  points : List CPoint

noncomputable def groupGo (cur : CGroup) : List CSeg → List CGroup
  | [] => [cur]
  | s :: rest =>
    if s.cartoonType = cur.cartoonType then
      groupGo ⟨cur.cartoonType, cur.segments ++ [s], cur.points ++ [s.point2]⟩ rest
    else
      cur :: groupGo ⟨s.cartoonType, [s], [s.point1, s.point2]⟩ rest

/-- `CartoonGenerator.groupSegmentsByType` (lines 213-240). -/
noncomputable def groupSegmentsByType : List CSeg → List CGroup
  | [] => []
  | s :: rest => groupGo ⟨s.cartoonType, [s], [s.point1, s.point2]⟩ rest

/-- `CartoonInterpolation.catmullRom` (part_004 lines 203-224). -/
noncomputable def catmullRom (p0 p1 p2 p3 : Vec3) (t : ℝ) : Vec3 :=
  let t2 := t * t
  let t3 := t2 * t
  ⟨0.5 * ((2 * p1.x) + (-p0.x + p2.x) * t +
      (2 * p0.x - 5 * p1.x + 4 * p2.x - p3.x) * t2 +
      (-p0.x + 3 * p1.x - 3 * p2.x + p3.x) * t3),
   0.5 * ((2 * p1.y) + (-p0.y + p2.y) * t +
      (2 * p0.y - 5 * p1.y + 4 * p2.y - p3.y) * t2 +
      (-p0.y + 3 * p1.y - 3 * p2.y + p3.y) * t3),
   0.5 * ((2 * p1.z) + (-p0.z + p2.z) * t +
      (2 * p0.z - 5 * p1.z + 4 * p2.z - p3.z) * t2 +
      (-p0.z + 3 * p1.z - 3 * p2.z + p3.z) * t3)⟩

/-- `CartoonInterpolation.linearInterpolate` (part_004 lines 226-232). -/
noncomputable def linearInterpolate (p1 p2 : Vec3) (t : ℝ) : Vec3 :=
  ⟨p1.x + t * (p2.x - p1.x), p1.y + t * (p2.y - p1.y), p1.z + t * (p2.z - p1.z)⟩

/-- `CartoonGenerator.interpolateSmooth` (lines 276-310): `(len-1) *
sampling` samples, linear for two points, Catmull-Rom with clamped
neighbour indices otherwise.  (The `smoothT` of line 305 is computed and
discarded by the source.) -/
noncomputable def interpolateSmooth (points : List CPoint) (sampling : Nat) :
    List Vec3 :=
  if points.length < 2 then points.map (·.pos)
  else
    let totalSegments := (points.length - 1) * sampling
    (List.range totalSegments).map fun (i : Nat) =>
      let t : ℝ := (i : ℝ) / ((totalSegments : ℝ) - 1)
      let segmentIndex : Nat := (⌊t * ((points.length : ℝ) - 1)⌋).toNat
      let localT : ℝ := t * ((points.length : ℝ) - 1) - segmentIndex
      if points.length = 2 then
        linearInterpolate (points.getD 0 default).pos (points.getD 1 default).pos localT
      else
        let p0 := (points.getD (segmentIndex - 1) default).pos
        let p1 := (points.getD segmentIndex default).pos
        let p2 := (points.getD (min (points.length - 1) (segmentIndex + 1)) default).pos
        let p3 := (points.getD (min (points.length - 1) (segmentIndex + 2)) default).pos
        catmullRom p0 p1 p2 p3 localT

/-- `CartoonMath.computeFrenetFrame` (part_004 lines 298-355). -/
noncomputable def cmComputeFrenetFrame (points : List Vec3) (index : Nat) : Frame :=
  let n := points.length
  let tangentRaw :=
    if index = 0 then Vec3.sub (points.getD 1 default) (points.getD 0 default)
    else if index = n - 1 then
      Vec3.sub (points.getD (n - 1) default) (points.getD (n - 2) default)
    else Vec3.sub (points.getD (index + 1) default) (points.getD (index - 1) default)
  let tangent := Vec3.cmNormalize tangentRaw
  let fallback :=
    if |tangent.y| < 0.9 then Vec3.cross tangent ⟨0, 1, 0⟩
    else Vec3.cross tangent ⟨1, 0, 0⟩
  let normalRaw :=
    if index = 0 ∨ index = n - 1 then fallback
    else
      let prev := points.getD (index - 1) default
      let curr := points.getD index default
      let next := points.getD (index + 1) default
      let d1 := Vec3.sub curr prev
      let d2 := Vec3.sub next curr
      let curvature := Vec3.sub d2 d1
      let proj := tangent.scale (Vec3.dot curvature tangent)
      let nrm := Vec3.sub curvature proj
      if nrm.len < 1e-6 then fallback else nrm
  let normal := Vec3.cmNormalize normalRaw
  let binormal := Vec3.cmNormalize (Vec3.cross tangent normal)
  ⟨tangent, normal, binormal⟩

/-- `CartoonGenerator.computeFrenetFrames` (lines 315-327): per-point
frames followed by the in-place twist minimization. -/
noncomputable def computeFrenetFrames (points : List Vec3) : List Frame :=
  minimizeFrameTwisting
    ((List.range points.length).map fun i => cmComputeFrenetFrame points i)

/-- `CartoonGenerator.generateColors` (lines 360-385): red for helices,
blue for sheets, green for loops and anything else. -/
noncomputable def cartoonColor (ct : CartoonType) : List ℝ :=
  match ct with
  | CartoonType.HELIX => [0.8, 0.2, 0.2]
  | CartoonType.SHEET => [0.2, 0.2, 0.8]
  | _ => [0.2, 0.8, 0.2]

noncomputable def generateColors (segs : List CSeg) : List (List ℝ) :=
  segs.map fun s => cartoonColor s.cartoonType

/-- The cartoon settings consumed by `createExtrusion`
(PyMOL defaults, pymol-cartoon-generator.js lines 18-27). -/
structure CartoonSettings where
  sampling : Nat
  helix_radius : ℝ
  sheet_width : ℝ
  sheet_length : ℝ
  loop_radius : ℝ
  smooth_power : ℝ
  arrow_scale : ℝ
  putty_scale : ℝ

noncomputable def defaultSettings : CartoonSettings :=
  ⟨20, 1.8, 2.5, 0.3, 0.8, 2.0, 1.5, 2.0⟩

/-- The extrusion record (`CartoonExtrude`, part_004 lines 25-75).  Flat
`Float32Array`s are lists of reals; the `alphas`, `indices` and
`scaleFactors` arrays are never read by the geometry path and are
omitted. -/
structure CartoonExtrude where
  n : Nat
  points : List ℝ
  normals : List ℝ
  colors : List ℝ
  shapeVertices : List ℝ
  shapeNormals : List ℝ
  nShapePoints : Nat

def emptyExtrude : CartoonExtrude := ⟨0, [], [], [], [], [], 0⟩

instance : Inhabited CartoonExtrude := ⟨emptyExtrude⟩

/-- `allocatePointsNormalsColors` (part_004 lines 40-52): zero-filled
arrays of the stated sizes. -/
noncomputable def allocateExtrude (n : Nat) : CartoonExtrude :=
  { emptyExtrude with
    n := n
    points := List.replicate (n * 3) 0
    normals := List.replicate (n * 9) 0
    colors := List.replicate (n * 3) 0 }

/-- `CartoonShapes.circle` (part_004 lines 81-103): for a circle of `n`
sides it stores `n + 1` profile points --- the seam vertex appears both at
angle `0` and at angle `2π` --- and sets `nShapePoints = n + 1`. -/
noncomputable def circleShapeVertices (n : Nat) (size : ℝ) : List ℝ :=
  (List.range (n + 1)).flatMap fun i =>
    let angle := 2 * Real.pi * (i : ℝ) / (n : ℝ)
    [size * Real.cos angle, size * Real.sin angle, 0]

noncomputable def circleShapeNormals (n : Nat) : List ℝ :=
  (List.range (n + 1)).flatMap fun i =>
    let angle := 2 * Real.pi * (i : ℝ) / (n : ℝ)
    [Real.cos angle, Real.sin angle, 0]

noncomputable def applyCircleShape (e : CartoonExtrude) (n : Nat) (size : ℝ) :
    CartoonExtrude :=
  { e with
    shapeVertices := circleShapeVertices n size
    shapeNormals := circleShapeNormals n
    nShapePoints := n + 1 }

/-- `CartoonShapes.rectangle` (part_004 lines 105-156): 16 profile points,
4 per edge, with per-edge outward normals. -/
noncomputable def rectangleShapeVertices (width length : ℝ) : List ℝ :=
  let w := width / 2
  let l := length / 2
  ((List.range 4).flatMap fun i => [-l + (i : ℝ) / 3 * (2 * l), w, 0]) ++
    ((List.range 4).flatMap fun i => [l, w - (i : ℝ) / 3 * (2 * w), 0]) ++
    ((List.range 4).flatMap fun i => [l - (i : ℝ) / 3 * (2 * l), -w, 0]) ++
    ((List.range 4).flatMap fun i => [-l, -w + (i : ℝ) / 3 * (2 * w), 0])

noncomputable def rectangleShapeNormals : List ℝ :=
  ((List.range 4).flatMap fun _ => [0, 1, 0]) ++
    ((List.range 4).flatMap fun _ => [1, 0, 0]) ++
    ((List.range 4).flatMap fun _ => [0, -1, 0]) ++
    ((List.range 4).flatMap fun _ => [-1, 0, 0])

noncomputable def applyRectangleShape (e : CartoonExtrude) (width length : ℝ) :
    CartoonExtrude :=
  { e with
    shapeVertices := rectangleShapeVertices width length
    shapeNormals := rectangleShapeNormals
    nShapePoints := 16 }

/-- One smooth curve run produced by `generateSmoothCurves`
(lines 245-271). -/
structure CCurve where
  cartoonType : CartoonType
  points : List Vec3
  frames : List Frame
  colors : List (List ℝ)
  segments : List CSeg

noncomputable def generateSmoothCurves (groups : List CGroup) (st : CartoonSettings) :
    List CCurve :=
  groups.filterMap fun g =>
    if g.points.length < 2 then none
    else
      let sp := interpolateSmooth g.points st.sampling
      some ⟨g.cartoonType, sp, computeFrenetFrames sp, generateColors g.segments,
        g.segments⟩

/-- `CartoonGenerator.createExtrusion` (lines 390-448).  The source copies
points, frames and the middle color index-wise into the pre-allocated
arrays; with the pipeline's matching lengths this fills exactly the slots
written below. -/
noncomputable def createExtrusion (c : CCurve) (st : CartoonSettings) :
    CartoonExtrude :=
  let n := c.points.length
  let e0 := allocateExtrude n
  let color := c.colors.getD (c.colors.length / 2) [0.8, 0.8, 0.8]
  let e1 : CartoonExtrude :=
    { e0 with
      points := c.points.flatMap fun p => [p.x, p.y, p.z]
      normals := c.frames.flatMap fun f =>
        [f.tangent.x, f.tangent.y, f.tangent.z,
         f.normal.x, f.normal.y, f.normal.z,
         f.binormal.x, f.binormal.y, f.binormal.z]
      colors := (List.range n).flatMap fun _ =>
        [color.getD 0 0.8, color.getD 1 0.8, color.getD 2 0.8] }
  match c.cartoonType with
  | CartoonType.HELIX => applyCircleShape e1 12 st.helix_radius
  | CartoonType.SHEET => applyRectangleShape e1 st.sheet_width st.sheet_length
  | _ => applyCircleShape e1 8 st.loop_radius

/-- The triangle geometry emitted by `CartoonGenerator.generateGeometry`
(lines 493-596). -/
structure MeshGeometry where
  vertices : List ℝ
  normals : List ℝ
  colors : List ℝ
  indices : List Nat

/-- The vertex loop of `generateGeometry` (lines 508-576): for each of the
`n` rings and each of the `nShapePoints` profile points, the world
position `point + shape.x * normal + shape.y * binormal`. -/
noncomputable def geometryVertices (e : CartoonExtrude) : List ℝ :=
  (List.range e.n).flatMap fun i =>
    (List.range e.nShapePoints).flatMap fun j =>
      let px := e.points.getD (i * 3) 0
      let py := e.points.getD (i * 3 + 1) 0
      let pz := e.points.getD (i * 3 + 2) 0
      let nvx := e.normals.getD (i * 9 + 3) 0
      let nvy := e.normals.getD (i * 9 + 4) 0
      let nvz := e.normals.getD (i * 9 + 5) 0
      let bvx := e.normals.getD (i * 9 + 6) 0
      let bvy := e.normals.getD (i * 9 + 7) 0
      let bvz := e.normals.getD (i * 9 + 8) 0
      let sx := e.shapeVertices.getD (j * 3) 0
      let sy := e.shapeVertices.getD (j * 3 + 1) 0
      [px + sx * nvx + sy * bvx, py + sx * nvy + sy * bvy, pz + sx * nvz + sy * bvz]

/-- The per-vertex world normals of the same loop (lines 552-570). -/
noncomputable def geometryNormals (e : CartoonExtrude) : List ℝ :=
  (List.range e.n).flatMap fun i =>
    (List.range e.nShapePoints).flatMap fun j =>
      let nvx := e.normals.getD (i * 9 + 3) 0
      let nvy := e.normals.getD (i * 9 + 4) 0
      let nvz := e.normals.getD (i * 9 + 5) 0
      let bvx := e.normals.getD (i * 9 + 6) 0
      let bvy := e.normals.getD (i * 9 + 7) 0
      let bvz := e.normals.getD (i * 9 + 8) 0
      let snx := e.shapeNormals.getD (j * 3) 0
      let sny := e.shapeNormals.getD (j * 3 + 1) 0
      [snx * nvx + sny * bvx, snx * nvy + sny * bvy, snx * nvz + sny * bvz]

/-- The per-vertex RGBA colors of the same loop (line 574). -/
noncomputable def geometryColors (e : CartoonExtrude) : List ℝ :=
  (List.range e.n).flatMap fun i =>
    (List.range e.nShapePoints).flatMap fun _ =>
      [e.colors.getD (i * 3) 0, e.colors.getD (i * 3 + 1) 0,
        e.colors.getD (i * 3 + 2) 0, 1]

/-- The index loop of `generateGeometry` (lines 579-593): for each of the
`n - 1` ring pairs and each of the `s` profile points, two triangles
`(i1, i2, i3)` and `(i2, i4, i3)` with wrap-around `nextJ`. -/
def geometryIndices (n s : Nat) : List Nat :=
  (List.range (n - 1)).flatMap fun i =>
    (List.range s).flatMap fun j =>
      let nextJ := (j + 1) % s
      let i1 := i * s + j
      let i2 := i * s + nextJ
      let i3 := (i + 1) * s + j
      let i4 := (i + 1) * s + nextJ
      [i1, i2, i3, i2, i4, i3]

/-- `CartoonGenerator.generateGeometry` (lines 493-596): empty output when
there are fewer than 2 rings or fewer than 3 profile points. -/
noncomputable def generateGeometry (e : CartoonExtrude) : MeshGeometry :=
  if e.n < 2 ∨ e.nShapePoints < 3 then ⟨[], [], [], []⟩
  else
    ⟨geometryVertices e, geometryNormals e, geometryColors e,
      geometryIndices e.n e.nShapePoints⟩

/-- The mesh produced by `CartoonGenerator.generateMesh` (lines 453-488):
the triangle geometry with its cartoon type; the Babylon mesh and material
objects are renderer state outside this core.  `generateMesh` returns null
when the geometry has no vertices. -/
structure CMesh where
  geometry : MeshGeometry
  cartoonType : CartoonType

noncomputable def generateMesh (e : CartoonExtrude) (ct : CartoonType) :
    Option CMesh :=
  let g := generateGeometry e
  if g.vertices.length = 0 then none else some ⟨g, ct⟩

/-- `CartoonGenerator.generateCartoon` (lines 33-85), returning the
emitted meshes together with the extrusions pushed onto `this.extrudes`.
The chain lookup by id is done by the caller; the guard on fewer than two
residues or backbone points returns nothing. -/
noncomputable def generateCartoon (residues : List Residue) (st : CartoonSettings) :
    List CMesh × List CartoonExtrude :=
  if residues.length < 2 then ([], [])
  else
    let backbonePoints := extractBackboneCoordinates residues
    if backbonePoints.length < 2 then ([], [])
    else
      let groups := groupSegmentsByType (detectSegments backbonePoints)
      let curves := generateSmoothCurves groups st
      curves.foldl
        (fun acc c =>
          let e := createExtrusion c st
          match generateMesh e c.cartoonType with
          | some m => (acc.1 ++ [m], acc.2 ++ [e])
          | none => acc)
        ([], [])

/-! ## The ribbon generator (ribbon-geometry.js, `RibbonGeometryGenerator`) -/

/-- A 2D cross-section profile point in the (normal, binormal) plane. -/
structure P2 where
  x : ℝ
  y : ℝ

/-- `getHelixProfile` (ribbon-geometry.js lines 231-247): a 12-point
circle of radius 1.2 --- one point per side, no duplicated seam. -/
noncomputable def getHelixProfile : List P2 :=
  (List.range 12).map fun i =>
    let angle := (i : ℝ) / 12 * (2 * Real.pi)
    ⟨Real.cos angle * 1.2, Real.sin angle * 1.2⟩

/-- `getSheetProfile` (lines 249-261): a 4-point rectangle, width 2.5,
thickness 0.3. -/
noncomputable def getSheetProfile : List P2 :=
  [⟨-(2.5) / 2, -(0.3) / 2⟩, ⟨2.5 / 2, -(0.3) / 2⟩,
   ⟨2.5 / 2, 0.3 / 2⟩, ⟨-(2.5) / 2, 0.3 / 2⟩]

/-- `getCoilProfile` (lines 263-274): a 4-point rectangle, width 0.8,
thickness 0.2. -/
noncomputable def getCoilProfile : List P2 :=
  [⟨-(0.8) / 2, -(0.2) / 2⟩, ⟨0.8 / 2, -(0.2) / 2⟩,
   ⟨0.8 / 2, 0.2 / 2⟩, ⟨-(0.8) / 2, 0.2 / 2⟩]

/-- `getProfileForSecondaryStructure` (lines 220-229). -/
noncomputable def getProfileForSS (ss : Label) : List P2 :=
  match ss with
  | Label.helix => getHelixProfile
  | Label.sheet => getSheetProfile
  | Label.coil => getCoilProfile

/-- `interpolateProfiles` (lines 302-317): index-modulo blend of two
profiles over the longer vertex count. -/
noncomputable def interpolateProfiles (profile1 profile2 : List P2) (t : ℝ) :
    List P2 :=
  (List.range (max profile1.length profile2.length)).map fun i =>
    let p1 := profile1.getD (i % profile1.length) ⟨0, 0⟩
    let p2 := profile2.getD (i % profile2.length) ⟨0, 0⟩
    ⟨p1.x * (1 - t) + p2.x * t, p1.y * (1 - t) + p2.y * t⟩

/-- One ribbon sample segment (`generateSegments`, lines 186-218). -/
structure RSeg where
  position : Vec3
  tangent : Vec3
  normal : Vec3
  binormal : Vec3
  profile : List P2
  residue : Residue
  t : ℝ
  segmentIndex : Nat

noncomputable instance : Inhabited RSeg :=
  ⟨⟨default, default, default, default, [], default, 0, 0⟩⟩

/-- One step of the in-place profile blending loop `smoothTransitions`
(lines 276-300): at a label transition the current segment's profile is
replaced by a blend with the (possibly already blended) previous
profile. -/
noncomputable def smoothStep (segs : List RSeg) (i : Nat) : List RSeg :=
  let prev := segs.getD (i - 1) default
  let cur := segs.getD i default
  let next := segs.getD (i + 1) default
  if prev.residue.secondaryStructure ≠ cur.residue.secondaryStructure ∨
      cur.residue.secondaryStructure ≠ next.residue.secondaryStructure then
    if prev.residue.secondaryStructure ≠ cur.residue.secondaryStructure then
      segs.set i { cur with profile := interpolateProfiles prev.profile cur.profile 0.3 }
    else segs
  else segs

noncomputable def smoothTransAux : Nat → List RSeg → Nat → List RSeg
  | 0, l, _ => l
  | fuel + 1, l, i =>
    if i + 1 < l.length then smoothTransAux fuel (smoothStep l i) (i + 1) else l

noncomputable def smoothTransitions (segs : List RSeg) : List RSeg :=
  smoothTransAux segs.length segs 1

/-- `RibbonGeometryGenerator.generateSegments` (lines 186-218): 8 samples
per residue along the whole chain spline, each segment carrying the frame
at its parameter, the owning residue (by `floor(i/8)`, clamped), and the
profile for that residue's label; followed by the transition blending. -/
noncomputable def generateSegments (spline : List Vec3) (residues : List Residue) :
    List RSeg :=
  let pointsPerResidue : Nat := 8
  let totalPoints : Nat := residues.length * pointsPerResidue
  smoothTransitions <|
    (List.range totalPoints).map fun (i : Nat) =>
      let t : ℝ := (i : ℝ) / ((totalPoints : ℝ) - 1)
      let fr := getFrenetFrameAt spline t
      let residueIndex : Nat := i / pointsPerResidue
      let residue := residues.getD (min residueIndex (residues.length - 1)) default
      ⟨fr.position, fr.tangent, fr.normal, fr.binormal,
        getProfileForSS residue.secondaryStructure, residue, t, i⟩

/-- The chunk metadata attached by `createSegmentMesh` (lines 404-411). -/
structure RMeta where
  chainId : String
  secondaryStructure : Label
  rangeStart : ℤ
  rangeEnd : ℤ

/-- A ribbon mesh chunk: positions, triangle indices, per-vertex colors
and metadata.  The `uvs` array and the Babylon-computed normals are
renderer state and omitted. -/
structure RMesh where
  positions : List ℝ
  indices : List Nat
  colors : List ℝ
  metadata : RMeta

noncomputable instance : Inhabited RMesh := ⟨⟨[], [], [], ⟨"", Label.coil, 0, 0⟩⟩⟩

/-- `transformProfileToWorld` (lines 416-432):
`position + normal * p.x + binormal * p.y` for each profile point. -/
noncomputable def transformProfileToWorld (s : RSeg) : List Vec3 :=
  s.profile.map fun p =>
    Vec3.add (Vec3.add s.position (s.normal.scale p.x)) (s.binormal.scale p.y)

/-- `getColorForSecondaryStructure` (lines 434-443). -/
noncomputable def ribbonColor (ss : Label) : List ℝ :=
  match ss with
  | Label.helix => [1, 0, 1]
  | Label.sheet => [0, 1, 1]
  | Label.coil => [1, 1, 0]

noncomputable def segmentPositions (segs : List RSeg) : List ℝ :=
  segs.flatMap fun s =>
    (transformProfileToWorld s).flatMap fun p => [p.x, p.y, p.z]

noncomputable def segmentColors (segs : List RSeg) : List ℝ :=
  segs.flatMap fun s =>
    (transformProfileToWorld s).flatMap fun _ =>
      ribbonColor s.residue.secondaryStructure ++ [1]

/-- The face loop of `createSegmentMesh` (lines 364-383): for each
consecutive segment pair, quads over the current segment's profile size,
triangles `(c1, n1, c2)` and `(c2, n1, n2)`. -/
noncomputable def segmentIndices (segs : List RSeg) : List Nat :=
  (List.range (segs.length - 1)).flatMap fun i =>
    let profileSize := (segs.getD i default).profile.length
    (List.range profileSize).flatMap fun j =>
      let nxt := (j + 1) % profileSize
      [i * profileSize + j, (i + 1) * profileSize + j, i * profileSize + nxt,
       i * profileSize + nxt, (i + 1) * profileSize + j,
       (i + 1) * profileSize + nxt]

/-- `RibbonGeometryGenerator.createSegmentMesh` (lines 335-414): null for
fewer than 2 segments, otherwise the extruded chunk with metadata holding
the chain id, label and residue range of the group. -/
noncomputable def createSegmentMesh (segs : List RSeg) : Option RMesh :=
  if segs.length < 2 then none
  else
    some
      { positions := segmentPositions segs
        indices := segmentIndices segs
        colors := segmentColors segs
        metadata :=
          { chainId := (segs.getD 0 default).residue.chainId
            secondaryStructure := (segs.getD 0 default).residue.secondaryStructure
            rangeStart := (segs.getD 0 default).residue.resSeq
            rangeEnd := (segs.getD (segs.length - 1) default).residue.resSeq } }

/-- The grouping loop of `createRibbonMeshes` (lines 319-333):
`for (i = 0; i < segments.length - 4; i += 4)` over 5-segment slices,
fuel-indexed (the fuel bounds the iteration count). -/
noncomputable def ribbonMeshesGo : Nat → List RSeg → Nat → List RMesh
  | 0, _, _ => []
  | fuel + 1, segs, i =>
    if i < segs.length - 4 then
      match createSegmentMesh ((segs.drop i).take 5) with
      | some m => m :: ribbonMeshesGo fuel segs (i + 4)
      | none => ribbonMeshesGo fuel segs (i + 4)
    else []

noncomputable def createRibbonMeshes (segs : List RSeg) : List RMesh :=
  ribbonMeshesGo segs.length segs 0

/-- The pure counting skeleton of the same loop, used to evaluate chunk
counts. -/
def ribbonCount : Nat → Nat → Nat → Nat
  | 0, _, _ => 0
  | fuel + 1, len, i => if i < len - 4 then 1 + ribbonCount fuel len (i + 4) else 0

/-- `extractBackbone` of the ribbon generator (lines 168-184): protein
residues with a CA atom. -/
noncomputable def extractBackbone (residues : List Residue) : List CPoint :=
  residues.filterMap fun r =>
    if r.isProtein then r.ca.map fun c => ⟨c, r⟩ else none

/-- `BSplineCurve.createProteinBackbone` (spline-math.js lines 234-252):
empty for fewer than 2 CA atoms, otherwise the smooth curve with tension
0.3 through the CA positions. -/
noncomputable def createProteinBackbone (caAtoms : List CPoint) : List Vec3 :=
  if caAtoms.length < 2 then []
  else createSmoothCurve (caAtoms.map (·.pos)) 0.3

/-- `RibbonGeometryGenerator.generateRibbon` (lines 139-166): no meshes
for fewer than 4 backbone atoms; otherwise spline, segments, chunks.  The
chain lookup and the protein-type check are the caller's. -/
noncomputable def generateRibbon (residues : List Residue) : List RMesh :=
  let backboneAtoms := extractBackbone residues
  if backboneAtoms.length < 4 then []
  else
    let spline := createProteinBackbone backboneAtoms
    let segments := generateSegments spline residues
    createRibbonMeshes segments

/-- The 10-residue chain of claim C4: CA-bearing residues numbered 1-10 on
chain A, labeled helix by a header record spanning residues 1-10. -/
noncomputable def tenHelixChain : List Residue :=
  assignHelixRecord ⟨"A", 1, 10⟩
    ((List.range 10).map fun (k : Nat) =>
      ⟨"A", (k : ℤ) + 1, true, Label.coil, some ⟨(k : ℝ), 0, 0⟩⟩)

/-! ## Fixed-column atom record parsing (spline-math.js, `PDBParser.parseAtom`)

JavaScript numbers resulting from `parseInt`/`parseFloat` on record fields
are modelled as `Option ℚ` / `Option ℤ`, with `none` playing the role of
NaN; the decimal strings of PDB fields are exactly representable as
rationals.
-/

/-- `String.prototype.substring(a, b)` for `a ≤ b` (as used on record
lines): the characters from index `a` up to, excluding, `b`, clamped to
the string length. -/
def jsSubstring (s : String) (a b : Nat) : String :=
  ⟨(s.data.drop a).take (b - a)⟩

/-- `String.prototype.trim`: strip leading and trailing whitespace. -/
def jsTrim (s : String) : String :=
  ⟨((s.data.dropWhile Char.isWhitespace).reverse.dropWhile Char.isWhitespace).reverse⟩

/-- An optional leading sign, as accepted by `parseInt`/`parseFloat`. -/
def parseSign : List Char → Int × List Char
  | '+' :: rest => (1, rest)
  | '-' :: rest => (-1, rest)
  | cs => (1, cs)

def spanDigits (cs : List Char) : List Char × List Char :=
  (cs.takeWhile Char.isDigit, cs.dropWhile Char.isDigit)

def digitsToNat (ds : List Char) : Nat :=
  ds.foldl (fun acc c => acc * 10 + (c.toNat - 48)) 0

/-- The exponent suffix accepted by `parseFloat`: `e`/`E`, optional sign,
digits; a malformed exponent is ignored (JavaScript `parseFloat("1e")`
is `1`). -/
def applyExponent (m : ℚ) (cs : List Char) : ℚ :=
  match cs with
  | e :: rest =>
    if e = 'e' ∨ e = 'E' then
      let (esign, rest1) := parseSign rest
      let (eds, _) := spanDigits rest1
      if eds.isEmpty then m else m * (10 : ℚ) ^ (esign * (digitsToNat eds : Int))
    else m
  | [] => m

/-- JavaScript `parseFloat` on a (trimmed) record field: parses the
longest decimal-number leading part of the string and ignores any
trailing characters; yields NaN (`none`) when no digit is consumed. -/
def jsParseFloat (s : String) : Option ℚ :=
  let (sign, cs1) := parseSign s.data
  let (intDs, cs2) := spanDigits cs1
  match cs2 with
  | '.' :: cs3 =>
    let (fracDs, cs4) := spanDigits cs3
    if intDs.isEmpty ∧ fracDs.isEmpty then none
    else
      let mantissa : ℚ :=
        (digitsToNat intDs : ℚ) + (digitsToNat fracDs : ℚ) / (10 : ℚ) ^ fracDs.length
      some ((sign : ℚ) * applyExponent mantissa cs4)
  | _ =>
    if intDs.isEmpty then none
    else some ((sign : ℚ) * applyExponent (digitsToNat intDs : ℚ) cs2)

/-- JavaScript `parseInt` (radix 10) on a trimmed field: sign and leading
digits; NaN (`none`) when no digit is consumed. -/
def jsParseInt (s : String) : Option Int :=
  let (sign, cs1) := parseSign s.data
  let (ds, _) := spanDigits cs1
  if ds.isEmpty then none else some (sign * (digitsToNat ds : Int))

/-- The JavaScript `v || d` applied to a parsed number (spline-math.js
lines 458-459): NaN and `0` are falsy, so both are replaced by the
default. -/
def jsOrQ (v : Option ℚ) (d : ℚ) : Option ℚ :=
  match v with
  | none => some d
  | some x => if x = 0 then some d else some x

/-- `s.startsWith(p)` on raw strings. -/
def strStartsWith (s p : String) : Bool :=
  s.data.take p.data.length == p.data

/-- `PDBParser.guessElement` (spline-math.js lines 804-818): first-match
name-prefix guessing (note `CA`, `CL`... hit the one-letter `C` case
first). -/
def guessElement (atomName : String) : String :=
  let name := jsToUpper (jsTrim atomName)
  if strStartsWith name "C" then "C"
  else if strStartsWith name "N" then "N"
  else if strStartsWith name "O" then "O"
  else if strStartsWith name "S" then "S"
  else if strStartsWith name "P" then "P"
  else if strStartsWith name "H" then "H"
  else if strStartsWith name "FE" then "FE"
  else if strStartsWith name "MG" then "MG"
  else if strStartsWith name "CA" then "CA"
  else if strStartsWith name "ZN" then "ZN"
  else "C"

/-- An atom as parsed by `parseAtom` (spline-math.js lines 445-473);
`none` in a numeric field is NaN. -/
structure JSAtom where
  id : Option Int
  name : String
  altLoc : String
  resName : String
  chainId : String
  resSeq : Option Int
  iCode : String
  x : Option ℚ
  y : Option ℚ
  z : Option ℚ
  occupancy : Option ℚ
  tempFactor : Option ℚ
  element : String
  charge : String
  isHetAtom : Bool

/-- `PDBParser.parseAtom` (spline-math.js lines 445-473): fixed-column
field extraction; unparseable numeric fields yield NaN, except that
occupancy and temperature factor pass through `|| 1.0` and `|| 0.0`.  The
function is total: no malformed field aborts the parse. -/
def parseAtom (line : String) : JSAtom :=
  { id := jsParseInt (jsTrim (jsSubstring line 6 11))
    name := jsTrim (jsSubstring line 12 16)
    altLoc := jsTrim (jsSubstring line 16 17)
    resName := jsTrim (jsSubstring line 17 20)
    chainId := jsTrim (jsSubstring line 21 22)
    resSeq := jsParseInt (jsTrim (jsSubstring line 22 26))
    iCode := jsTrim (jsSubstring line 26 27)
    x := jsParseFloat (jsTrim (jsSubstring line 30 38))
    y := jsParseFloat (jsTrim (jsSubstring line 38 46))
    z := jsParseFloat (jsTrim (jsSubstring line 46 54))
    occupancy := jsOrQ (jsParseFloat (jsTrim (jsSubstring line 54 60))) 1
    tempFactor := jsOrQ (jsParseFloat (jsTrim (jsSubstring line 60 66))) 0
    element :=
      let e := jsTrim (jsSubstring line 76 78)
      if e = "" then guessElement (jsTrim (jsSubstring line 12 16)) else e
    charge := jsTrim (jsSubstring line 78 80)
    isHetAtom := strStartsWith line "HETATM" }

/-! ## Geometric secondary-structure analysis (part_002,
`SecondaryStructureAnalyzer`) -/

/-- `distance3D` (part_002 lines 398-403). -/
noncomputable def distance3D (p1 p2 : Vec3) : ℝ :=
  Real.sqrt ((p2.x - p1.x) * (p2.x - p1.x) + (p2.y - p1.y) * (p2.y - p1.y) +
    (p2.z - p1.z) * (p2.z - p1.z))

/-- `vector3D` (part_002 lines 405-411). -/
noncomputable def vector3D (p1 p2 : Vec3) : Vec3 :=
  ⟨p2.x - p1.x, p2.y - p1.y, p2.z - p1.z⟩

/-- `angleBetweenVectors` (part_002 lines 421-430): zero for a
zero-length argument, otherwise the arc cosine of the clamped normalized
dot product (in radians).  `dotProduct` and `vectorLength` of the source
are `Vec3.dot` and `Vec3.len`. -/
noncomputable def angleBetweenVectors (v1 v2 : Vec3) : ℝ :=
  if Vec3.len v1 = 0 ∨ Vec3.len v2 = 0 then 0
  else Real.arccos (max (-1) (min 1 (Vec3.dot v1 v2 / (Vec3.len v1 * Vec3.len v2))))

/-- `calculateTorsionAngle` (part_002 lines 432-445), in degrees. -/
noncomputable def calculateTorsionAngle (p1 p2 p3 p4 : Vec3) : ℝ :=
  let v1 := vector3D p1 p2
  let v2 := vector3D p2 p3
  let v3 := vector3D p3 p4
  let n1 := Vec3.cross v1 v2
  let n2 := Vec3.cross v2 v3
  let angle := angleBetweenVectors n1 n2
  let sign : ℝ := if 0 < Vec3.dot (Vec3.cross n1 n2) v2 then 1 else -1
  sign * angle * 180 / Real.pi

/-- `extractCAAtoms` (part_002 lines 111-120): the CA positions of the
protein residues that have one. -/
noncomputable def extractCAAtoms (residues : List Residue) : List Vec3 :=
  residues.filterMap fun r => if r.isProtein then r.ca else none

/-- `calculateDistances` (part_002 lines 122-131): consecutive CA-CA
distances. -/
noncomputable def calculateDistances (caAtoms : List Vec3) : List ℝ :=
  (List.range (caAtoms.length - 1)).map fun i =>
    distance3D (caAtoms.getD i default) (caAtoms.getD (i + 1) default)

/-- `calculateAngles` (part_002 lines 133-145): backbone turn angles in
degrees. -/
noncomputable def calculateAngles (caAtoms : List Vec3) : List ℝ :=
  (List.range (caAtoms.length - 2)).map fun i =>
    angleBetweenVectors
        (vector3D (caAtoms.getD i default) (caAtoms.getD (i + 1) default))
        (vector3D (caAtoms.getD (i + 1) default) (caAtoms.getD (i + 2) default)) *
      180 / Real.pi

/-- `calculateTorsions` (part_002 lines 147-161). -/
noncomputable def calculateTorsions (caAtoms : List Vec3) : List ℝ :=
  (List.range (caAtoms.length - 3)).map fun i =>
    calculateTorsionAngle (caAtoms.getD i default) (caAtoms.getD (i + 1) default)
      (caAtoms.getD (i + 2) default) (caAtoms.getD (i + 3) default)

/-- `scoreHelicalGeometry` (part_002 lines 163-205), with the helix
parameters of lines 10-17 (CA distance 3.8 ± 0.4, turn angle 100° ± 30°,
torsion self-consistency within 30° of the mean).  The loop accumulations
are rendered as sums over the mapped lists; `count` increments once per
distance, once per angle, and once more when at least two torsions
exist. -/
noncomputable def scoreHelicalGeometry (distances angles torsions : List ℝ) : ℝ :=
  let s1 := (distances.map fun dist =>
    if |dist - 3.8| ≤ 0.4 then 1 - |dist - 3.8| / 0.4 else 0).sum
  let s2 := (angles.map fun angle =>
    if |angle - 100| ≤ 30 then 1 - |angle - 100| / 30 else 0).sum
  let s3 : ℝ :=
    if 2 ≤ torsions.length then
      let avgTorsion := torsions.sum / (torsions.length : ℝ)
      (torsions.map fun tor => if |tor - avgTorsion| < 30 then (1 : ℝ) else 0).sum /
        (torsions.length : ℝ)
    else 0
  let count : Nat :=
    distances.length + angles.length + (if 2 ≤ torsions.length then 1 else 0)
  if 0 < count then (s1 + s2 + s3) / (count : ℝ) else 0

/-- `scoreSheetGeometry` (part_002 lines 207-233), with the sheet
parameters of lines 19-25 (extended conformation from average CA-CA
distance at least 3.3, straight segments with turn angle below 30° or
above 150°).  `count` is 1 after the distance check and 2 when there is
at least one angle. -/
noncomputable def scoreSheetGeometry (distances angles : List ℝ) : ℝ :=
  let avgDistance := distances.sum / (distances.length : ℝ)
  let s1 : ℝ :=
    if 3.3 ≤ avgDistance then min 1 ((avgDistance - 3.3) / 0.5) else 0
  let s2 : ℝ :=
    if 0 < angles.length then
      (angles.map fun angle =>
        if angle < 30 ∨ 180 - 30 < angle then (1 : ℝ) else 0).sum /
        (angles.length : ℝ)
    else 0
  let count : Nat := 1 + (if 0 < angles.length then 1 else 0)
  (s1 + s2) / (count : ℝ)

/-- `calculateConfidence` (part_002 lines 235-252); the `angles` argument
of the source is unused.  Confidence shrinks by `len/5` for incomplete
windows and by 0.8 for distance variance above 0.5, floored at 0.1. -/
noncomputable def calculateConfidence (caAtoms : List Vec3)
    (distances : List ℝ) : ℝ :=
  let c1 : ℝ := if caAtoms.length < 5 then (caAtoms.length : ℝ) / 5 else 1
  let avgDistance := distances.sum / (distances.length : ℝ)
  let variance :=
    (distances.map fun d => (d - avgDistance) ^ 2).sum / (distances.length : ℝ)
  let c2 := if 0.5 < variance then c1 * 0.8 else c1
  max 0.1 c2

/-- The per-residue score record of `calculateGeometryScores`. -/
structure SSScore where
  helixScore : ℝ
  sheetScore : ℝ
  coilScore : ℝ
  confidence : ℝ

/-- `analyzeLocalGeometry` (part_002 lines 78-109); the `centerIndex`
argument of the source is unused by its body.  Fewer than 3 CA atoms give
the pure-coil score with zero confidence. -/
noncomputable def analyzeLocalGeometry (window : List Residue) : SSScore :=
  let caAtoms := extractCAAtoms window
  if caAtoms.length < 3 then ⟨0, 0, 1, 0⟩
  else
    let distances := calculateDistances caAtoms
    let angles := calculateAngles caAtoms
    let torsions := calculateTorsions caAtoms
    let helixScore := scoreHelicalGeometry distances angles torsions
    let sheetScore := scoreSheetGeometry distances angles
    let coilScore := max 0 (1 - max helixScore sheetScore)
    ⟨helixScore, sheetScore, coilScore, calculateConfidence caAtoms distances⟩

/-- The window of `calculateGeometryScores` at position `i`
(part_002 lines 58-62): `residues.slice(max(0, i-2), min(len-1, i+2) + 1)`
with the analyzer's window size 5. -/
noncomputable def windowSlice (residues : List Residue) (i : Nat) : List Residue :=
  (residues.drop (i - 2)).take (min (residues.length - 1) (i + 2) + 1 - (i - 2))

/-- `calculateGeometryScores` (part_002 lines 53-75). -/
noncomputable def calculateGeometryScores (residues : List Residue) : List SSScore :=
  (List.range residues.length).map fun i => analyzeLocalGeometry (windowSlice residues i)

/-- `applyGeometryAssignments` (part_002 lines 254-279): a structured
label needs confidence above 0.5, a winning score above 0.6, and a strict
win over the other structured score. -/
noncomputable def applyGeometryAssignments (scores : List SSScore) : List Label :=
  scores.map fun sc =>
    if 0.5 < sc.confidence then
      if sc.sheetScore < sc.helixScore ∧ 0.6 < sc.helixScore then Label.helix
      else if sc.helixScore < sc.sheetScore ∧ 0.6 < sc.sheetScore then Label.sheet
      else Label.coil
    else Label.coil

/-- `analyzeChain` (part_002 lines 31-51), returning the final labels it
writes onto the residues: all coil for chains shorter than the analysis
window, otherwise the smoothed geometric assignments. -/
noncomputable def analyzeChainLabels (residues : List Residue) : List Label :=
  if residues.length < 5 then residues.map fun _ => Label.coil
  else smoothAssignments (applyGeometryAssignments (calculateGeometryScores residues))

/-- The 5-residue chain of claim C3: colinear CA atoms spaced exactly
3.8 Å apart. -/
noncomputable def c3Residues : List Residue :=
  [⟨"A", 1, true, Label.coil, some ⟨0, 0, 0⟩⟩,
   ⟨"A", 2, true, Label.coil, some ⟨19 / 5, 0, 0⟩⟩,
   ⟨"A", 3, true, Label.coil, some ⟨38 / 5, 0, 0⟩⟩,
   ⟨"A", 4, true, Label.coil, some ⟨57 / 5, 0, 0⟩⟩,
   ⟨"A", 5, true, Label.coil, some ⟨76 / 5, 0, 0⟩⟩]

/-- The 4-control-point curve refuting the original C6 tolerance claim:
on `[0,1)` its x-coordinate is `t - (1000/1001) t^2`, so at `t = 1/2` the
finite-difference tangents at `t ± 0.001` point in opposite directions and
the raw normal difference is exactly anti-parallel to the tangent. -/
noncomputable def c6Curve : List Vec3 :=
  [⟨-5003 / 3003, 0, 0⟩, ⟨1000 / 3003, 0, 0⟩, ⟨1003 / 3003, 0, 0⟩,
   ⟨-4994 / 3003, 0, 0⟩]

/-- A straight 4-control-point curve along the x-axis; on `[0,1)` its
x-coordinate is `1 + t`. -/
noncomputable def c6Line : List Vec3 :=
  [⟨0, 0, 0⟩, ⟨1, 0, 0⟩, ⟨2, 0, 0⟩, ⟨3, 0, 0⟩]

/-! ### List access helper lemmas -/

theorem getD_set_self {α : Type _} {l : List α} {i : Nat} {v d : α}
    (h : i < l.length) : (l.set i v).getD i d = v := by
  rw [List.getD_eq_getElem?_getD, List.getElem?_set_self h]; rfl

theorem getD_set_ne {α : Type _} {l : List α} {i k : Nat} {v d : α}
    (h : i ≠ k) : (l.set i v).getD k d = l.getD k d := by
  rw [List.getD_eq_getElem?_getD, List.getElem?_set_ne h,
    ← List.getD_eq_getElem?_getD]

theorem getD_mem_of_lt {α : Type _} {l : List α} {k : Nat} (d : α)
    (h : k < l.length) : l.getD k d ∈ l := by
  rw [List.getD_eq_getElem?_getD, List.getElem?_eq_getElem h]
  exact List.getElem_mem h

/-! ### Basic facts about maximal runs -/

theorem minRuns_of_no_pos {l : List Label} {s : Label}
    (h : ∀ k, k < l.length → l.getD k Label.coil ≠ s) (m : Nat) :
    MinRuns l s m := by
  intro a b hr
  obtain ⟨hab, hb, hall, -, -⟩ := hr
  exact absurd (hall a le_rfl hab) (h a (lt_of_le_of_lt hab hb))

theorem minRuns_of_all_pos {l : List Label} {s : Label} {m : Nat}
    (h : ∀ k, k < l.length → l.getD k Label.coil = s) (hm : m ≤ l.length) :
    MinRuns l s m := by
  intro a b hr
  obtain ⟨hab, hb, hall, hleft, hright⟩ := hr
  have ha : a = 0 := by
    rcases hleft with h0 | hne
    · exact h0
    · by_contra hc
      exact hne (h (a - 1) (by omega))
  have hb1 : b + 1 = l.length := by
    rcases hright with h0 | hne
    · exact h0
    · by_contra hc
      exact hne (h (b + 1) (by omega))
  omega

theorem isRun_cons_ne {x : Label} {t : List Label} {s : Label} {a b : Nat}
    (hx : x ≠ s) (h : IsRun (x :: t) s a b) :
    1 ≤ a ∧ IsRun t s (a - 1) (b - 1) := by
  obtain ⟨hab, hb, hall, hleft, hright⟩ := h
  rw [List.length_cons] at hb
  have ha : 1 ≤ a := by
    by_contra hc
    have ha0 : a = 0 := by omega
    have h0 := hall 0 (by omega) (by omega)
    rw [List.getD_cons_zero] at h0
    exact hx h0
  refine ⟨ha, by omega, by omega, ?_, ?_, ?_⟩
  · intro k hk1 hk2
    have h0 := hall (k + 1) (by omega) (by omega)
    rwa [List.getD_cons_succ] at h0
  · rcases Nat.eq_or_lt_of_le ha with h1 | h2
    · left; omega
    · right
      rcases hleft with h0 | hne
      · omega
      · have he : a - 1 = (a - 2) + 1 := by omega
        rw [he, List.getD_cons_succ] at hne
        have he2 : a - 1 - 1 = a - 2 := by omega
        rwa [he2]
  · rcases hright with h0 | hne
    · rw [List.length_cons] at h0
      left; omega
    · right
      rw [List.getD_cons_succ] at hne
      have hb1 : b - 1 + 1 = b := by omega
      rwa [hb1]

theorem minRuns_cons_ne {x : Label} {t : List Label} {s : Label} {m : Nat}
    (hx : x ≠ s) (h : MinRuns t s m) : MinRuns (x :: t) s m := by
  intro a b hr
  have hab : a ≤ b := hr.1
  obtain ⟨ha, hrun⟩ := isRun_cons_ne hx hr
  have := h _ _ hrun
  omega

theorem isRun_append_cases {p q : List Label} {s : Label} {a b : Nat}
    (hq : ∀ _ : 0 < q.length, q.getD 0 Label.coil ≠ s)
    (h : IsRun (p ++ q) s a b) :
    (b < p.length ∧ IsRun p s a b) ∨
      (p.length < a ∧ IsRun q s (a - p.length) (b - p.length)) := by
  obtain ⟨hab, hb, hall, hleft, hright⟩ := h
  rw [List.length_append] at hb
  by_cases hbp : b < p.length
  · left
    refine ⟨hbp, hab, hbp, ?_, ?_, ?_⟩
    · intro k hk1 hk2
      have h0 := hall k hk1 hk2
      rwa [List.getD_append _ _ _ _ (by omega)] at h0
    · rcases hleft with h0 | hne
      · exact Or.inl h0
      · right; rwa [List.getD_append _ _ _ _ (by omega)] at hne
    · by_cases hbe : b + 1 = p.length
      · exact Or.inl hbe
      · right
        rcases hright with h0 | hne
        · rw [List.length_append] at h0; omega
        · rwa [List.getD_append _ _ _ _ (by omega)] at hne
  · right
    have hpa : p.length < a := by
      by_contra hc
      push_neg at hc
      have hq0 : 0 < q.length := by omega
      have h0 := hall p.length (by omega) (by omega)
      rw [List.getD_append_right _ _ _ _ le_rfl, Nat.sub_self] at h0
      exact hq hq0 h0
    refine ⟨hpa, by omega, by omega, ?_, ?_, ?_⟩
    · intro k hk1 hk2
      have h0 := hall (k + p.length) (by omega) (by omega)
      rwa [List.getD_append_right _ _ _ _ (by omega),
        Nat.add_sub_cancel] at h0
    · right
      rcases hleft with h0 | hne
      · omega
      · rw [List.getD_append_right _ _ _ _ (by omega)] at hne
        have he : a - 1 - p.length = a - p.length - 1 := by omega
        rwa [he] at hne
    · rcases hright with h0 | hne
      · rw [List.length_append] at h0
        left; omega
      · right
        rw [List.getD_append_right _ _ _ _ (by omega)] at hne
        have he : b + 1 - p.length = b - p.length + 1 := by omega
        rwa [he] at hne

theorem minRuns_append {p q : List Label} {s : Label} {m : Nat}
    (hp : MinRuns p s m) (hqr : MinRuns q s m)
    (hq : ∀ _ : 0 < q.length, q.getD 0 Label.coil ≠ s) :
    MinRuns (p ++ q) s m := by
  intro a b hr
  have hab : a ≤ b := hr.1
  rcases isRun_append_cases hq hr with ⟨-, h⟩ | ⟨hpa, h⟩
  · exact hp _ _ h
  · have := hqr _ _ h
    omega

/-! ### The enforcement pass establishes the minimum run lengths -/

theorem minRuns_finishRun {s : Label} (hs : s ≠ Label.coil) {m : Nat}
    {run : List Label} (hall : ∀ y ∈ run, y = s) :
    MinRuns (finishRun m run) s m := by
  unfold finishRun
  split
  next =>
    apply minRuns_of_no_pos
    intro k hk hc
    have hmem := getD_mem_of_lt Label.coil hk
    rw [hc] at hmem
    rcases List.mem_map.1 hmem with ⟨y, -, hy⟩
    exact hs hy.symm
  next hlen =>
    apply minRuns_of_all_pos
    · intro k hk
      exact hall _ (getD_mem_of_lt _ hk)
    · omega

theorem minRuns_enforceGo {s : Label} (hs : s ≠ Label.coil) (m : Nat) :
    ∀ (l run : List Label), (∀ y ∈ run, y = s) →
      MinRuns (enforceGo s m run l) s m := by
  intro l
  induction l with
  | nil =>
    intro run hall
    exact minRuns_finishRun hs hall
  | cons x xs ih =>
    intro run hall
    rw [enforceGo]
    split
    next hx =>
      apply ih
      intro y hy
      rcases List.mem_append.1 hy with h | h
      · exact hall _ h
      · have hyx : y = x := by simpa using h
        rw [hyx]; exact hx
    next hx =>
      apply minRuns_append (minRuns_finishRun hs hall)
        (minRuns_cons_ne hx (ih [] (by simp)))
      intro h0 hc
      rw [List.getD_cons_zero] at hc
      exact hx hc

theorem minRuns_enforceMinimumLength {s : Label} (hs : s ≠ Label.coil)
    (m : Nat) (l : List Label) : MinRuns (enforceMinimumLength s m l) s m :=
  minRuns_enforceGo hs m l [] (by simp)

/-! ### The enforcement pass only turns its own label into coil -/

theorem forall₂_map_coil {s : Label} :
    ∀ (run : List Label), (∀ y ∈ run, y = s) →
      List.Forall₂ (EnfRel s) run (run.map fun _ => Label.coil)
  | [], _ => by simp
  | y :: ys, hall => by
    rw [List.map_cons, List.forall₂_cons]
    exact ⟨Or.inr ⟨hall y (by simp), rfl⟩,
      forall₂_map_coil ys fun z hz => hall z (by simp [hz])⟩

theorem forall₂_append_rel {R : Label → Label → Prop}
    {l₁ l₂ u₁ u₂ : List Label} (h1 : List.Forall₂ R l₁ l₂)
    (h2 : List.Forall₂ R u₁ u₂) : List.Forall₂ R (l₁ ++ u₁) (l₂ ++ u₂) := by
  induction h1 with
  | nil => simpa using h2
  | cons hr _ ih => simpa [List.forall₂_cons] using ⟨hr, ih⟩

theorem forall₂_finishRun {s : Label} (m : Nat) {run : List Label}
    (hall : ∀ y ∈ run, y = s) :
    List.Forall₂ (EnfRel s) run (finishRun m run) := by
  unfold finishRun
  split
  · exact forall₂_map_coil run hall
  · exact List.forall₂_same.2 fun x _ => Or.inl rfl

theorem forall₂_enforceGo {s : Label} (m : Nat) :
    ∀ (l run : List Label), (∀ y ∈ run, y = s) →
      List.Forall₂ (EnfRel s) (run ++ l) (enforceGo s m run l) := by
  intro l
  induction l with
  | nil =>
    intro run hall
    rw [List.append_nil, enforceGo]
    exact forall₂_finishRun m hall
  | cons x xs ih =>
    intro run hall
    rw [enforceGo]
    split
    next hx =>
      have he : run ++ x :: xs = (run ++ [x]) ++ xs := by simp
      rw [he]
      apply ih
      intro y hy
      rcases List.mem_append.1 hy with h | h
      · exact hall _ h
      · have hyx : y = x := by simpa using h
        rw [hyx]; exact hx
    next hx =>
      exact forall₂_append_rel (forall₂_finishRun m hall)
        (List.forall₂_cons.2 ⟨Or.inl rfl, by simpa using ih [] (by simp)⟩)

theorem forall₂_enforce (s : Label) (m : Nat) (l : List Label) :
    List.Forall₂ (EnfRel s) l (enforceMinimumLength s m l) := by
  simpa using forall₂_enforceGo (s := s) m l [] (by simp)

theorem forall₂_getD {R : Label → Label → Prop} :
    ∀ {l l' : List Label}, List.Forall₂ R l l' → ∀ {k : Nat}, k < l.length →
      ∀ d d', R (l.getD k d) (l'.getD k d') := by
  intro l l' h
  induction h with
  | nil => intro k hk; simp at hk
  | cons hr _ ih =>
    intro k hk d d'
    cases k with
    | zero => simpa using hr
    | succ k =>
      rw [List.getD_cons_succ, List.getD_cons_succ]
      exact ih (by simpa using hk) d d'

theorem minRuns_congr {l l' : List Label} {s : Label} {m : Nat}
    (hlen : l'.length = l.length)
    (hiff : ∀ k, k < l.length →
      (l'.getD k Label.coil = s ↔ l.getD k Label.coil = s))
    (h : MinRuns l s m) : MinRuns l' s m := by
  intro a b hr
  obtain ⟨hab, hb, hall, hleft, hright⟩ := hr
  rw [hlen] at hb
  apply h a b
  refine ⟨hab, hb, ?_, ?_, ?_⟩
  · intro k hk1 hk2
    exact (hiff k (by omega)).1 (hall k hk1 hk2)
  · rcases hleft with h0 | hne
    · exact Or.inl h0
    · right; intro hc
      exact hne ((hiff (a - 1) (by omega)).2 hc)
  · by_cases hbl : b + 1 = l.length
    · exact Or.inl hbl
    · rcases hright with h0 | hne
      · omega
      · right; intro hc
        exact hne ((hiff (b + 1) (by omega)).2 hc)

theorem minRuns_enforce_other {s s' : Label} (hss : s ≠ s')
    (hs : s ≠ Label.coil) {m m' : Nat} {l : List Label}
    (h : MinRuns l s m) : MinRuns (enforceMinimumLength s' m' l) s m := by
  have hf := forall₂_enforce s' m' l
  apply minRuns_congr hf.length_eq.symm ?_ h
  intro k hk
  rcases forall₂_getD hf hk Label.coil Label.coil with heq | ⟨h1, h2⟩
  · rw [heq]
  · rw [h2, h1]
    exact ⟨fun hc => absurd hc (Ne.symm hs), fun hc => absurd hc.symm hss⟩

/-! ### The gap-filling pass preserves the minimum run lengths -/

theorem minRuns_set_merge {l : List Label} {i : Nat} {s₀ u : Label} {m : Nat}
    (hu : u ≠ Label.coil) (hi : 1 ≤ i) (hil : i < l.length)
    (hleft : l.getD (i - 1) Label.coil = s₀)
    (hcur : l.getD i Label.coil = Label.coil)
    (h : MinRuns l u m) : MinRuns (l.set i s₀) u m := by
  intro a b hr
  obtain ⟨hab, hb, hall, hleftr, hrightr⟩ := hr
  rw [List.length_set] at hb
  by_cases hmem : a ≤ i ∧ i ≤ b
  · have hus : u = s₀ := by
      have h0 := hall i hmem.1 hmem.2
      rw [getD_set_self hil] at h0
      exact h0.symm
    have hai : a < i := by
      rcases Nat.lt_or_ge a i with h' | h'
      · exact h'
      · exfalso
        have hae : a = i := by omega
        rcases hleftr with h0 | hne
        · omega
        · apply hne
          rw [hae, getD_set_ne (by omega), hleft, ← hus]
    have hold : IsRun l u a (i - 1) := by
      refine ⟨by omega, by omega, ?_, ?_, ?_⟩
      · intro k hk1 hk2
        have h0 := hall k hk1 (by omega)
        rwa [getD_set_ne (by omega)] at h0
      · rcases hleftr with h0 | hne
        · exact Or.inl h0
        · right; rwa [getD_set_ne (by omega)] at hne
      · right
        have he : (i - 1) + 1 = i := by omega
        rw [he, hcur]
        exact Ne.symm hu
    have := h _ _ hold
    omega
  · apply h a b
    have hio : i < a ∨ b < i := by omega
    refine ⟨hab, hb, ?_, ?_, ?_⟩
    · intro k hk1 hk2
      have h0 := hall k hk1 hk2
      rwa [getD_set_ne (by omega)] at h0
    · rcases hleftr with h0 | hne
      · exact Or.inl h0
      · right
        by_cases hai : a - 1 = i
        · rw [hai, hcur]; exact Ne.symm hu
        · rwa [getD_set_ne fun hc => hai hc.symm] at hne
    · rcases hrightr with h0 | hne
      · left; rw [List.length_set] at h0; exact h0
      · right
        by_cases hbi : b + 1 = i
        · rw [hbi, hcur]; exact Ne.symm hu
        · rwa [getD_set_ne fun hc => hbi hc.symm] at hne

theorem mrpair_set {l : List Label} {i : Nat} {s₀ : Label}
    (hi : 1 ≤ i) (hil : i < l.length)
    (hleft : l.getD (i - 1) Label.coil = s₀)
    (hcur : l.getD i Label.coil = Label.coil)
    (h : MRpair l) : MRpair (l.set i s₀) :=
  ⟨minRuns_set_merge (by decide) hi hil hleft hcur h.1,
   minRuns_set_merge (by decide) hi hil hleft hcur h.2⟩

theorem mrpair_setSeg {s₀ : Label} :
    ∀ (g : Nat) (l : List Label) (i : Nat), 1 ≤ i → i + g ≤ l.length →
      l.getD (i - 1) Label.coil = s₀ →
      (∀ j, j < g → l.getD (i + j) Label.coil = Label.coil) →
      MRpair l → MRpair (setSeg l i g s₀)
  | 0, _, _, _, _, _, _, h => h
  | g + 1, l, i, hi, hlen, hleft, hcoil, h => by
    rw [setSeg]
    have hil : i < l.length := by omega
    have hc0 : l.getD i Label.coil = Label.coil := by
      have h0 := hcoil 0 (by omega)
      simpa using h0
    apply mrpair_setSeg g (l.set i s₀) (i + 1) (by omega)
    · rw [List.length_set]; omega
    · have he : i + 1 - 1 = i := by omega
      rw [he, getD_set_self hil]
    · intro j hj
      rw [getD_set_ne (by omega)]
      have h0 := hcoil (j + 1) (by omega)
      have he : i + (j + 1) = i + 1 + j := by omega
      rwa [he] at h0
    · exact mrpair_set hi hil hleft hc0 h

theorem mrpair_fillSingleStep {l : List Label} {i : Nat}
    (hi : 1 ≤ i) (hil : i < l.length) (h : MRpair l) :
    MRpair (fillSingleStep l i) := by
  unfold fillSingleStep
  split
  next hcond => exact mrpair_set hi hil rfl hcond.1 h
  next => exact h

theorem mrpair_fillSingleAux :
    ∀ (fuel : Nat) (l : List Label) (i : Nat), 1 ≤ i → MRpair l →
      MRpair (fillSingleAux fuel l i)
  | 0, _, _, _, h => h
  | fuel + 1, l, i, hi, h => by
    rw [fillSingleAux]
    split
    next hlt =>
      exact mrpair_fillSingleAux fuel _ (i + 1) (by omega)
        (mrpair_fillSingleStep hi (by omega) h)
    next => exact h

theorem mrpair_fillGapStep {g : Nat} {l : List Label} {i : Nat}
    (hi : 1 ≤ i) (hig : i + g ≤ l.length) (h : MRpair l) :
    MRpair (fillGapStep g l i) := by
  unfold fillGapStep
  split
  next hcond => exact mrpair_setSeg g l i hi hig rfl hcond.1 h
  next => exact h

theorem mrpair_fillGapAux (g : Nat) :
    ∀ (fuel : Nat) (l : List Label) (i : Nat), 1 ≤ i → MRpair l →
      MRpair (fillGapAux g fuel l i)
  | 0, _, _, _, h => h
  | fuel + 1, l, i, hi, h => by
    rw [fillGapAux]
    split
    next hlt =>
      exact mrpair_fillGapAux g fuel _ (i + 1) (by omega)
        (mrpair_fillGapStep hi (by omega) h)
    next => exact h

theorem mrpair_fillGapsOuter :
    ∀ (fuel : Nat) (l : List Label) (g maxG : Nat), 1 ≤ g → MRpair l →
      MRpair (fillGapsOuter fuel l g maxG)
  | 0, _, _, _, _, h => h
  | fuel + 1, l, g, maxG, hg, h => by
    rw [fillGapsOuter]
    split
    next =>
      exact mrpair_fillGapsOuter fuel _ (g + 1) maxG (by omega)
        (mrpair_fillGapAux g l.length l g hg h)
    next => exact h

theorem mrpair_fillShortGaps {l : List Label} {maxG : Nat} (h : MRpair l) :
    MRpair (fillShortGaps l maxG) :=
  mrpair_fillGapsOuter (maxG + 1) _ 2 maxG (by omega)
    (mrpair_fillSingleAux l.length l 1 le_rfl h)

/-- C2: for every input label sequence fed through the smoothing pass
(minimum-run enforcement followed by coil-gap filling), the output contains
no maximal contiguous helix run of length less than 4 and no maximal
contiguous sheet run of length less than 3. -/
theorem claim_C2 (l : List Label) :
    MinRuns (smoothAssignments l) Label.helix 4 ∧
      MinRuns (smoothAssignments l) Label.sheet 3 := by
  have h1 : MinRuns (enforceMinimumLength Label.helix 4 l) Label.helix 4 :=
    minRuns_enforceMinimumLength (by decide) 4 l
  have h2 : MinRuns (enforceMinimumLength Label.sheet 3
      (enforceMinimumLength Label.helix 4 l)) Label.helix 4 :=
    minRuns_enforce_other (by decide) (by decide) h1
  have h3 : MinRuns (enforceMinimumLength Label.sheet 3
      (enforceMinimumLength Label.helix 4 l)) Label.sheet 3 :=
    minRuns_enforceMinimumLength (by decide) 3 _
  exact mrpair_fillShortGaps ⟨h2, h3⟩


theorem claim_C2_witness :
    MinRuns (smoothAssignments [Label.helix]) Label.helix 4 ∧
      MinRuns (smoothAssignments [Label.helix]) Label.sheet 3 :=
  claim_C2 [Label.helix]

/-! ### C5: twist minimization keeps consecutive normals non-opposed -/

theorem dot_scale_neg_one (a b : Vec3) :
    Vec3.dot a (b.scale (-1)) = -Vec3.dot a b := by
  simp only [Vec3.dot, Vec3.scale]
  ring

theorem twistStep_normal_dot (prev f : Frame) :
    0 ≤ Vec3.dot prev.normal (twistStep prev f).normal := by
  unfold twistStep
  by_cases h : Vec3.dot prev.normal f.normal < 0
  · simp only [if_pos h]
    split
    · rw [dot_scale_neg_one]; linarith
    · rw [dot_scale_neg_one]; linarith
  · simp only [if_neg h]
    split
    · linarith [not_lt.1 h]
    · linarith [not_lt.1 h]

theorem twistGo_length (prev : Frame) (fs : List Frame) :
    (twistGo prev fs).length = fs.length := by
  induction fs generalizing prev with
  | nil => rfl
  | cons f fs ih => simp [twistGo, ih]

theorem twistGo_chain :
    ∀ (fs : List Frame) (prev : Frame) (i : Nat),
      i + 1 < (prev :: twistGo prev fs).length →
      0 ≤ Vec3.dot ((prev :: twistGo prev fs).getD i default).normal
        ((prev :: twistGo prev fs).getD (i + 1) default).normal := by
  intro fs
  induction fs with
  | nil =>
    intro prev i h
    simp [twistGo] at h
  | cons f fs ih =>
    intro prev i h
    rw [twistGo] at h ⊢
    cases i with
    | zero =>
      simpa [List.getD_cons_zero, List.getD_cons_succ] using
        twistStep_normal_dot prev f
    | succ i =>
      have h' : i + 1 < (twistStep prev f :: twistGo (twistStep prev f) fs).length := by
        simp at h ⊢
        omega
      simpa [List.getD_cons_succ] using ih (twistStep prev f) i h'

/-- C5: after the twist-minimization pass over any sequence of frames,
every pair of consecutive frames has `dot(normal_i, normal_(i+1)) ≥ 0`. -/
theorem claim_C5 (frames : List Frame) (i : Nat)
    (h : i + 1 < (minimizeFrameTwisting frames).length) :
    0 ≤ Vec3.dot ((minimizeFrameTwisting frames).getD i default).normal
      ((minimizeFrameTwisting frames).getD (i + 1) default).normal := by
  cases frames with
  | nil => simp [minimizeFrameTwisting] at h
  | cons f fs =>
    rw [minimizeFrameTwisting] at h ⊢
    exact twistGo_chain fs f i h

theorem claim_C5_witness :
    0 ≤ Vec3.dot
      ((minimizeFrameTwisting
        [⟨⟨1,0,0⟩, ⟨0,1,0⟩, ⟨0,0,1⟩⟩, ⟨⟨1,0,0⟩, ⟨0,-1,0⟩, ⟨0,0,1⟩⟩]).getD 0
          default).normal
      ((minimizeFrameTwisting
        [⟨⟨1,0,0⟩, ⟨0,1,0⟩, ⟨0,0,1⟩⟩, ⟨⟨1,0,0⟩, ⟨0,-1,0⟩, ⟨0,0,1⟩⟩]).getD 1
          default).normal :=
  claim_C5 _ 0 (by simp [minimizeFrameTwisting, twistGo])

/-! ### C7: the protein residue-name set wrongly contains water -/

/-- C7: the claim says `isProtein` is true for exactly the 20 standard
amino acids plus selected modified residues and false for water names; the
source's set however contains the water name `HOH`, so `isProteinResidue`
answers `true` on `HOH` even though `HOH` is precisely what the water test
recognises.  (Code bug: evaluation of the source at the failing input.) -/
theorem claim_C7 :
    isProteinResidue "HOH" = true ∧ isWaterResName "HOH" = true ∧
      isProteinResidue "GLY" = true ∧ isProteinResidue "XYZ" = false := by
  refine ⟨by decide, by decide, by decide, by decide⟩

/-! ### C8: pairwise ligand bond inference -/

/-- C8: for atoms `i < j` of a ligand, a bond between them is emitted if
and only if their distance `d` satisfies `0.4 < d < 1.3 * (r_i + r_j)`,
radii looked up by upper-cased element symbol with default `0.76`. -/
theorem claim_C8 (atoms : List LigAtom) (i j : Nat) (hij : i < j)
    (hj : j < atoms.length) :
    ((⟨i, j, ligDistance (atoms.getD i default) (atoms.getD j default)⟩ : LigBond) ∈
        calculateLigandBonds atoms) ↔
      (0.4 < ligDistance (atoms.getD i default) (atoms.getD j default) ∧
        ligDistance (atoms.getD i default) (atoms.getD j default) <
          1.3 * (covalentRadius (atoms.getD i default).element +
            covalentRadius (atoms.getD j default).element)) := by
  unfold calculateLigandBonds
  constructor
  · intro hmem
    rcases List.mem_flatMap.1 hmem with ⟨i', hi', hmem1⟩
    rcases List.mem_flatMap.1 hmem1 with ⟨j', hj', hmem2⟩
    dsimp only at hmem2
    by_cases hij' : i' < j'
    · rw [if_pos hij'] at hmem2
      split at hmem2
      next hcond =>
        simp only [List.mem_singleton, LigBond.mk.injEq] at hmem2
        obtain ⟨hi0, hj0, -⟩ := hmem2
        subst hi0
        subst hj0
        exact ⟨hcond.2, by linarith [hcond.1]⟩
      next => simp at hmem2
    · rw [if_neg hij'] at hmem2
      simp at hmem2
  · intro hcond
    apply List.mem_flatMap.2
    refine ⟨i, List.mem_range.2 (by omega), ?_⟩
    apply List.mem_flatMap.2
    refine ⟨j, List.mem_range.2 hj, ?_⟩
    dsimp only
    rw [if_pos hij, if_pos ⟨by linarith [hcond.2], hcond.1⟩]
    simp

theorem claim_C8_witness :
    (⟨0, 1, ligDistance (([⟨0,0,0,"C"⟩, ⟨1,0,0,"C"⟩] : List LigAtom).getD 0 default)
        (([⟨0,0,0,"C"⟩, ⟨1,0,0,"C"⟩] : List LigAtom).getD 1 default)⟩ : LigBond) ∈
      calculateLigandBonds [⟨0,0,0,"C"⟩, ⟨1,0,0,"C"⟩] := by
  have hd : ligDistance (([⟨0,0,0,"C"⟩, ⟨1,0,0,"C"⟩] : List LigAtom).getD 0 default)
      (([⟨0,0,0,"C"⟩, ⟨1,0,0,"C"⟩] : List LigAtom).getD 1 default) = 1 := by
    simp only [List.getD_cons_zero, List.getD_cons_succ]
    unfold ligDistance
    norm_num
  have hr : covalentRadius "C" = 0.76 := rfl
  apply (claim_C8 [⟨0,0,0,"C"⟩, ⟨1,0,0,"C"⟩] 0 1 (by norm_num) (by simp)).2
  constructor
  · rw [hd]; norm_num
  · rw [hd]
    simp only [List.getD_cons_zero, List.getD_cons_succ, hr]
    norm_num

/-! ### C10: curve point evaluation is total -/

/-- C10: `getPointAt` is total: with zero control points it returns the
origin, with 1-3 control points it returns the first control point, and
with at least 4 control points the selected 4-point span start index lies
within the control-point array bounds. -/
theorem claim_C10 (cps : List Vec3) (t : ℝ) :
    (cps.length = 0 → getPointAt cps t = ⟨0, 0, 0⟩) ∧
      (1 ≤ cps.length → cps.length ≤ 3 →
        getPointAt cps t = cps.headD ⟨0, 0, 0⟩) ∧
      (4 ≤ cps.length → spanStartIndex cps.length t + 3 < cps.length) := by
  refine ⟨?_, ?_, ?_⟩
  · intro h
    unfold getPointAt
    rw [if_pos (by omega), if_pos h]
  · intro h1 h3
    unfold getPointAt
    rw [if_pos (by omega), if_neg (by omega)]
  · intro h4
    unfold spanStartIndex
    have hmin : min (spanOf cps.length t) ((cps.length : ℤ) - 4) ≤
        (cps.length : ℤ) - 4 := min_le_right _ _
    omega

theorem claim_C10_witness :
    getPointAt ([] : List Vec3) 5 = ⟨0, 0, 0⟩ ∧
      getPointAt [(⟨1, 2, 3⟩ : Vec3)] 5 = ⟨1, 2, 3⟩ ∧
      spanStartIndex 4 2 + 3 < 4 := by
  refine ⟨(claim_C10 [] 5).1 rfl, ?_, ?_⟩
  · have h := (claim_C10 [(⟨1, 2, 3⟩ : Vec3)] 5).2.1 (by simp) (by simp)
    simpa using h
  · have h := (claim_C10 [(⟨0,0,0⟩ : Vec3), ⟨1,0,0⟩, ⟨2,0,0⟩, ⟨3,0,0⟩] 2).2.2
      (by simp)
    simpa using h


/-! ### C1: extrusion vertex and index counts -/

theorem flatMap_length_const {α β : Type _} (l : List α) (f : α → List β)
    (c : Nat) (h : ∀ a ∈ l, (f a).length = c) :
    (l.flatMap f).length = l.length * c := by
  induction l with
  | nil => simp
  | cons x xs ih =>
    rw [List.flatMap_cons, List.length_append, h x (by simp),
      ih fun a ha => h a (by simp [ha]), List.length_cons]
    ring

theorem range_flatMap_range_length {γ : Type _} (n m c : Nat)
    (f : Nat → Nat → List γ) (h : ∀ i j, (f i j).length = c) :
    ((List.range n).flatMap fun i =>
      (List.range m).flatMap fun j => f i j).length = n * m * c := by
  rw [flatMap_length_const _ _ (m * c), List.length_range, Nat.mul_assoc]
  intro a _
  rw [flatMap_length_const _ _ c, List.length_range]
  intro b _
  exact h a b

theorem geometryVertices_length (e : CartoonExtrude) :
    (geometryVertices e).length = e.n * e.nShapePoints * 3 := by
  unfold geometryVertices
  exact range_flatMap_range_length _ _ _ _ fun i j => rfl

theorem geometryIndices_length (n s : Nat) :
    (geometryIndices n s).length = (n - 1) * s * 6 := by
  unfold geometryIndices
  exact range_flatMap_range_length _ _ _ _ fun i j => rfl

theorem generateGeometry_counts (e : CartoonExtrude) (h2 : 2 ≤ e.n)
    (h3 : 3 ≤ e.nShapePoints) :
    (generateGeometry e).vertices.length = e.n * e.nShapePoints * 3 ∧
      (generateGeometry e).indices.length = (e.n - 1) * e.nShapePoints * 6 := by
  unfold generateGeometry
  rw [if_neg (by omega)]
  exact ⟨geometryVertices_length e, geometryIndices_length e.n e.nShapePoints⟩

theorem transformProfileToWorld_length (s : RSeg) :
    (transformProfileToWorld s).length = s.profile.length := by
  unfold transformProfileToWorld
  rw [List.length_map]

theorem segmentPositions_length (segs : List RSeg) (n : Nat)
    (h : ∀ s ∈ segs, s.profile.length = n) :
    (segmentPositions segs).length = segs.length * (n * 3) := by
  unfold segmentPositions
  rw [flatMap_length_const _ _ (n * 3)]
  intro s hs
  rw [flatMap_length_const _ _ 3]
  · rw [transformProfileToWorld_length, h s hs]
  · intro p _
    rfl

theorem segmentIndices_length (segs : List RSeg) (n : Nat)
    (h : ∀ s ∈ segs, s.profile.length = n) :
    (segmentIndices segs).length = (segs.length - 1) * (n * 6) := by
  unfold segmentIndices
  rw [flatMap_length_const _ _ (n * 6), List.length_range]
  intro i hi
  rw [List.mem_range] at hi
  dsimp only
  have hsi : (segs.getD i default).profile.length = n :=
    h _ (getD_mem_of_lt _ (by omega))
  rw [hsi, flatMap_length_const _ _ 6, List.length_range]
  intro j _
  rfl

theorem createSegmentMesh_counts (segs : List RSeg) (n : Nat)
    (h : ∀ s ∈ segs, s.profile.length = n) (h2 : 2 ≤ segs.length) :
    ∃ mesh, createSegmentMesh segs = some mesh ∧
      mesh.positions.length = segs.length * n * 3 ∧
      mesh.indices.length = (segs.length - 1) * n * 6 := by
  unfold createSegmentMesh
  rw [if_neg (by omega)]
  refine ⟨_, rfl, ?_, ?_⟩
  · rw [segmentPositions_length segs n h]
    ring
  · rw [segmentIndices_length segs n h]
    ring

/-- C1 as amended: extruding a cross-section stored as `n` profile points
over `m` curve samples yields `m * n` vertices and `(m - 1) * n * 6`
triangle indices.  The ribbon generator's circular profiles store one
point per side, so for them the claim's formula is exact (first
conjunct); the cartoon generator's `CartoonShapes.circle` with `n` sides
stores `n + 1` points (duplicated seam vertex), so its extrusion yields
`m * (n + 1)` vertices and `(m - 1) * (n + 1) * 6` indices (second
conjunct). -/
theorem claim_C1 :
    (∀ (segs : List RSeg) (n : Nat), 3 ≤ n → 2 ≤ segs.length →
      (∀ s ∈ segs, s.profile.length = n) →
      ∃ mesh, createSegmentMesh segs = some mesh ∧
        mesh.positions.length = segs.length * n * 3 ∧
        mesh.indices.length = (segs.length - 1) * n * 6) ∧
    (∀ (e : CartoonExtrude) (nSides : Nat) (size : ℝ), 3 ≤ nSides → 2 ≤ e.n →
      (generateGeometry (applyCircleShape e nSides size)).vertices.length
          = e.n * (nSides + 1) * 3 ∧
        (generateGeometry (applyCircleShape e nSides size)).indices.length
          = (e.n - 1) * (nSides + 1) * 6) := by
  constructor
  · intro segs n _ h2 h
    exact createSegmentMesh_counts segs n h h2
  · intro e nSides size h3 h2
    have h := generateGeometry_counts (applyCircleShape e nSides size)
      (by simpa [applyCircleShape] using h2) (by simp [applyCircleShape]; omega)
    simpa [applyCircleShape] using h

/-- C1 as frozen is refuted on the cartoon generator: a closed circular
profile of 3 sides (stored as 4 points by `CartoonShapes.circle`) extruded
over 2 samples yields 8 vertices (24 floats) and 24 indices, not the
claimed `2 * 3 = 6` vertices (18 floats) and `(2-1) * 3 * 6 = 18`
indices. -/
theorem claim_C1_counterexample :
    (generateGeometry (applyCircleShape (allocateExtrude 2) 3 1)).vertices.length
        = 24 ∧
      (generateGeometry (applyCircleShape (allocateExtrude 2) 3 1)).indices.length
        = 24 ∧
      ¬((generateGeometry (applyCircleShape (allocateExtrude 2) 3 1)).vertices.length
          = 2 * 3 * 3 ∧
        (generateGeometry (applyCircleShape (allocateExtrude 2) 3 1)).indices.length
          = (2 - 1) * 3 * 6) := by
  have h := generateGeometry_counts (applyCircleShape (allocateExtrude 2) 3 1)
    (by simp [applyCircleShape, allocateExtrude]) (by simp [applyCircleShape])
  have hv : (generateGeometry (applyCircleShape (allocateExtrude 2) 3 1)).vertices.length = 24 := by
    rw [h.1]; rfl
  have hi : (generateGeometry (applyCircleShape (allocateExtrude 2) 3 1)).indices.length = 24 := by
    rw [h.2]; rfl
  refine ⟨hv, hi, ?_⟩
  rw [hv, hi]
  norm_num

theorem claim_C1_witness :
    (∃ mesh,
      createSegmentMesh
        [⟨default, default, default, default, [⟨0, 0⟩, ⟨1, 0⟩, ⟨0, 1⟩], default, 0, 0⟩,
         ⟨default, default, default, default, [⟨0, 0⟩, ⟨1, 0⟩, ⟨0, 1⟩], default, 0, 1⟩]
          = some mesh ∧
        mesh.positions.length = 2 * 3 * 3 ∧ mesh.indices.length = (2 - 1) * 3 * 6) ∧
      ((generateGeometry (applyCircleShape (allocateExtrude 5) 12 1.8)).vertices.length
          = 5 * (12 + 1) * 3 ∧
        (generateGeometry (applyCircleShape (allocateExtrude 5) 12 1.8)).indices.length
          = (5 - 1) * (12 + 1) * 6) := by
  constructor
  · have h := claim_C1.1
      [⟨default, default, default, default, [⟨0, 0⟩, ⟨1, 0⟩, ⟨0, 1⟩], default, 0, 0⟩,
       ⟨default, default, default, default, [⟨0, 0⟩, ⟨1, 0⟩, ⟨0, 1⟩], default, 0, 1⟩] 3
      (by norm_num) (by simp)
      (by
        intro s hs
        rcases List.mem_cons.mp hs with rfl | hs2
        · rfl
        · rcases List.mem_cons.mp hs2 with rfl | hs3
          · rfl
          · simp at hs3)
    simpa using h
  · have h := claim_C1.2 (allocateExtrude 5) 12 1.8 (by norm_num)
      (by simp [allocateExtrude])
    simpa [allocateExtrude] using h


/-! ### C4: mesh chunks for a 10-residue helix chain -/

theorem getD_map_range {α : Type _} (f : Nat → α) {n i : Nat} (d : α)
    (h : i < n) : ((List.range n).map f).getD i d = f i := by
  rw [List.getD_eq_getElem?_getD, List.getElem?_map, List.getElem?_range h]
  rfl

theorem filterMap_total {α β : Type _} (l : List α) (f : α → Option β)
    (g : α → β) (h : ∀ a ∈ l, f a = some (g a)) : l.filterMap f = l.map g := by
  induction l with
  | nil => rfl
  | cons x xs ih =>
    rw [List.filterMap_cons, h x (by simp), List.map_cons,
      ih fun a ha => h a (by simp [ha])]

theorem filterMap_length_total {α β : Type _} (l : List α) (f : α → Option β)
    (h : ∀ a ∈ l, (f a).isSome) : (l.filterMap f).length = l.length := by
  induction l with
  | nil => rfl
  | cons x xs ih =>
    have hx := h x (by simp)
    rcases Option.isSome_iff_exists.1 hx with ⟨b, hb⟩
    rw [List.filterMap_cons, hb, List.length_cons,
      ih fun a ha => h a (by simp [ha]), List.length_cons]

theorem tenHelixChain_eq :
    tenHelixChain = (List.range 10).map fun k =>
      ⟨"A", (k : ℤ) + 1, true, Label.helix, some ⟨(k : ℝ), 0, 0⟩⟩ := by
  unfold tenHelixChain assignHelixRecord
  rw [List.map_map]
  apply List.map_congr_left
  intro k hk
  rw [List.mem_range] at hk
  simp only [Function.comp]
  rw [if_pos ⟨by trivial, by omega, by omega⟩]

theorem tenHelixChain_length : tenHelixChain.length = 10 := by
  rw [tenHelixChain_eq, List.length_map, List.length_range]

theorem tenHelix_backbone :
    extractBackboneCoordinates tenHelixChain = (List.range 10).map fun k =>
      ⟨⟨(k : ℝ), 0, 0⟩, ⟨"A", (k : ℤ) + 1, true, Label.helix, some ⟨(k : ℝ), 0, 0⟩⟩⟩ := by
  rw [tenHelixChain_eq]
  unfold extractBackboneCoordinates
  rw [List.filterMap_map]
  apply filterMap_total
  intro k _
  rfl

theorem tenHelix_segments_types :
    ∀ s ∈ detectSegments (extractBackboneCoordinates tenHelixChain),
      s.cartoonType = CartoonType.HELIX := by
  intro s hs
  unfold detectSegments at hs
  rw [tenHelix_backbone] at hs
  rcases List.mem_map.1 hs with ⟨i, hi, heq⟩
  rw [List.length_map, List.length_range, List.mem_range] at hi
  rw [← heq]
  dsimp only
  rw [getD_map_range _ _ (by omega : i < 10)]
  rfl

theorem tenHelix_segments_length :
    (detectSegments (extractBackboneCoordinates tenHelixChain)).length = 9 := by
  unfold detectSegments
  rw [List.length_map, List.length_range, tenHelix_backbone, List.length_map,
    List.length_range]

theorem groupGo_const : ∀ (l : List CSeg) (cur : CGroup),
    (∀ s ∈ l, s.cartoonType = cur.cartoonType) →
    groupGo cur l =
      [⟨cur.cartoonType, cur.segments ++ l, cur.points ++ l.map (·.point2)⟩]
  | [], cur, _ => by simp [groupGo]
  | s :: rest, cur, h => by
    rw [groupGo, if_pos (h s (by simp))]
    rw [groupGo_const rest _ (by intro x hx; simpa using h x (by simp [hx]))]
    simp

theorem groupSegmentsByType_const (l : List CSeg) (ct : CartoonType)
    (hne : l ≠ []) (h : ∀ s ∈ l, s.cartoonType = ct) :
    ∃ g, groupSegmentsByType l = [g] ∧ g.cartoonType = ct ∧
      g.points.length = l.length + 1 := by
  cases l with
  | nil => exact absurd rfl hne
  | cons s rest =>
    rw [groupSegmentsByType, groupGo_const rest _
      (by intro x hx; rw [h x (by simp [hx]), h s (by simp)])]
    refine ⟨_, rfl, h s (by simp), ?_⟩
    simp [Nat.add_comm]

theorem interpolateSmooth_length (points : List CPoint) (sampling : Nat)
    (h : 2 ≤ points.length) :
    (interpolateSmooth points sampling).length = (points.length - 1) * sampling := by
  unfold interpolateSmooth
  rw [if_neg (by omega), List.length_map, List.length_range]

theorem createExtrusion_n (c : CCurve) (st : CartoonSettings) :
    (createExtrusion c st).n = c.points.length := by
  unfold createExtrusion
  cases c.cartoonType <;>
    simp [applyCircleShape, applyRectangleShape, allocateExtrude]

theorem createExtrusion_helix_shape (c : CCurve) (st : CartoonSettings)
    (hct : c.cartoonType = CartoonType.HELIX) :
    (createExtrusion c st).nShapePoints = 12 + 1 ∧
      (createExtrusion c st).shapeVertices = circleShapeVertices 12 st.helix_radius := by
  unfold createExtrusion
  rw [hct]
  exact ⟨rfl, rfl⟩

/-- C4 as amended, cartoon-generator half: for the 10-residue helix
chain, `generateCartoon` emits exactly one mesh from exactly one
extrusion, and that extrusion's cross-section is the 12-sided circular
profile (13 stored points) at the default helix radius.  (The cartoon
generator's meshes carry no residue-range metadata at all; the metadata
half of the original claim fails in the ribbon generator, see the
counterexample.) -/
theorem claim_C4 :
    (generateCartoon tenHelixChain defaultSettings).1.length = 1 ∧
      (generateCartoon tenHelixChain defaultSettings).2.length = 1 ∧
      ((generateCartoon tenHelixChain defaultSettings).2.getD 0
          emptyExtrude).nShapePoints = 12 + 1 ∧
      ((generateCartoon tenHelixChain defaultSettings).2.getD 0
          emptyExtrude).shapeVertices =
        circleShapeVertices 12 defaultSettings.helix_radius := by
  obtain ⟨g, hg, hgct, hgpts⟩ :=
    groupSegmentsByType_const (detectSegments (extractBackboneCoordinates tenHelixChain))
      CartoonType.HELIX (by
        intro hc
        have := tenHelix_segments_length
        rw [hc] at this
        simp at this)
      tenHelix_segments_types
  rw [tenHelix_segments_length] at hgpts
  have hsc : generateSmoothCurves
      (groupSegmentsByType (detectSegments (extractBackboneCoordinates tenHelixChain)))
      defaultSettings =
      [⟨g.cartoonType, interpolateSmooth g.points defaultSettings.sampling,
        computeFrenetFrames (interpolateSmooth g.points defaultSettings.sampling),
        generateColors g.segments, g.segments⟩] := by
    rw [hg]
    unfold generateSmoothCurves
    rw [List.filterMap_cons]
    rw [if_neg (by omega)]
    rfl
  set c : CCurve :=
    ⟨g.cartoonType, interpolateSmooth g.points defaultSettings.sampling,
      computeFrenetFrames (interpolateSmooth g.points defaultSettings.sampling),
      generateColors g.segments, g.segments⟩ with hc
  have hcn : c.points.length = 180 := by
    show (interpolateSmooth g.points defaultSettings.sampling).length = 180
    rw [interpolateSmooth_length _ _ (by omega), hgpts]
    rfl
  have hen : (createExtrusion c defaultSettings).n = 180 := by
    rw [createExtrusion_n, hcn]
  have hshape := createExtrusion_helix_shape c defaultSettings hgct
  have hmesh : generateMesh (createExtrusion c defaultSettings) c.cartoonType =
      some ⟨generateGeometry (createExtrusion c defaultSettings), c.cartoonType⟩ := by
    unfold generateMesh
    rw [if_neg]
    have hv := (generateGeometry_counts (createExtrusion c defaultSettings)
      (by omega) (by omega)).1
    rw [hv, hen, hshape.1]
    norm_num
  have hmain : generateCartoon tenHelixChain defaultSettings =
      ([⟨generateGeometry (createExtrusion c defaultSettings), c.cartoonType⟩],
        [createExtrusion c defaultSettings]) := by
    unfold generateCartoon
    rw [if_neg (by rw [tenHelixChain_length]; omega)]
    rw [if_neg (by
      rw [tenHelix_backbone, List.length_map, List.length_range]; omega)]
    dsimp only
    rw [hsc, List.foldl_cons, List.foldl_nil]
    dsimp only
    rw [hmesh]
    rfl
  rw [hmain]
  exact ⟨rfl, rfl, hshape.1, hshape.2⟩

theorem smoothStep_length (segs : List RSeg) (i : Nat) :
    (smoothStep segs i).length = segs.length := by
  unfold smoothStep
  dsimp only
  split
  · split
    · rw [List.length_set]
    · rfl
  · rfl

theorem smoothTransAux_length :
    ∀ (fuel : Nat) (segs : List RSeg) (i : Nat),
      (smoothTransAux fuel segs i).length = segs.length
  | 0, _, _ => rfl
  | fuel + 1, segs, i => by
    rw [smoothTransAux]
    split
    · rw [smoothTransAux_length fuel _ (i + 1), smoothStep_length]
    · rfl

theorem generateSegments_length (spline : List Vec3) (residues : List Residue) :
    (generateSegments spline residues).length = residues.length * 8 := by
  unfold generateSegments
  dsimp only
  unfold smoothTransitions
  rw [smoothTransAux_length, List.length_map, List.length_range]

theorem createSegmentMesh_isSome (segs : List RSeg) (h : 2 ≤ segs.length) :
    createSegmentMesh segs =
      some
        { positions := segmentPositions segs
          indices := segmentIndices segs
          colors := segmentColors segs
          metadata :=
            { chainId := (segs.getD 0 default).residue.chainId
              secondaryStructure := (segs.getD 0 default).residue.secondaryStructure
              rangeStart := (segs.getD 0 default).residue.resSeq
              rangeEnd := (segs.getD (segs.length - 1) default).residue.resSeq } } := by
  unfold createSegmentMesh
  rw [if_neg (by omega)]

theorem ribbonMeshesGo_length :
    ∀ (fuel : Nat) (segs : List RSeg) (i : Nat),
      (ribbonMeshesGo fuel segs i).length = ribbonCount fuel segs.length i
  | 0, _, _ => rfl
  | fuel + 1, segs, i => by
    rw [ribbonMeshesGo, ribbonCount]
    split
    next hlt =>
      have hslice : 2 ≤ ((segs.drop i).take 5).length := by
        rw [List.length_take, List.length_drop]
        omega
      rw [createSegmentMesh_isSome _ hslice]
      simp only [List.length_cons]
      rw [ribbonMeshesGo_length fuel segs (i + 4)]
      omega
    next => rfl

/-- C4 as frozen is refuted: the ribbon generator --- the generator whose
mesh chunks actually carry `residueRange` metadata --- emits 19 chunks for
the 10-residue helix chain (one per group of 4 sub-segments at 8 samples
per residue), not exactly one. -/
theorem claim_C4_counterexample :
    (generateRibbon tenHelixChain).length = 19 ∧
      ¬(generateRibbon tenHelixChain).length = 1 := by
  have hbb : (extractBackbone tenHelixChain).length = 10 := by
    unfold extractBackbone
    rw [tenHelixChain_eq, List.filterMap_map, filterMap_length_total,
      List.length_range]
    intro a _
    rfl
  have hlen : (generateRibbon tenHelixChain).length =
      (createRibbonMeshes (generateSegments
        (createProteinBackbone (extractBackbone tenHelixChain)) tenHelixChain)).length := by
    unfold generateRibbon
    rw [if_neg (by omega)]
  rw [hlen]
  unfold createRibbonMeshes
  rw [ribbonMeshesGo_length, generateSegments_length, tenHelixChain_length]
  norm_num
  constructor
  · decide
  · decide


/-! ### C9: malformed numeric fields in atom records -/

/-- C9 as amended: the parse of an `ATOM`/`HETATM` record never aborts
(`parseAtom` is total by construction), and when the serial, residue
sequence number, or a coordinate fails to parse, the corresponding atom
field is NaN; an unparseable occupancy however becomes `1.0` and an
unparseable temperature factor becomes `0.0`, because the source guards
those two fields with `|| 1.0` and `|| 0.0`. -/
theorem claim_C9 (line : String)
    (hid : jsParseInt (jsTrim (jsSubstring line 6 11)) = none)
    (hseq : jsParseInt (jsTrim (jsSubstring line 22 26)) = none)
    (hx : jsParseFloat (jsTrim (jsSubstring line 30 38)) = none)
    (hy : jsParseFloat (jsTrim (jsSubstring line 38 46)) = none)
    (hz : jsParseFloat (jsTrim (jsSubstring line 46 54)) = none)
    (hocc : jsParseFloat (jsTrim (jsSubstring line 54 60)) = none)
    (htmp : jsParseFloat (jsTrim (jsSubstring line 60 66)) = none) :
    (parseAtom line).id = none ∧ (parseAtom line).resSeq = none ∧
      (parseAtom line).x = none ∧ (parseAtom line).y = none ∧
      (parseAtom line).z = none ∧ (parseAtom line).occupancy = some 1 ∧
      (parseAtom line).tempFactor = some 0 := by
  unfold parseAtom
  refine ⟨hid, hseq, hx, hy, hz, ?_, ?_⟩
  · show jsOrQ (jsParseFloat (jsTrim (jsSubstring line 54 60))) 1 = some 1
    rw [hocc]
    rfl
  · show jsOrQ (jsParseFloat (jsTrim (jsSubstring line 60 66))) 0 = some 0
    rw [htmp]
    rfl

/-- C9 as frozen is refuted at a record whose occupancy and temperature
factor columns are unparseable: the parsed atom's occupancy is `1.0` and
its temperature factor `0.0` --- numbers, not NaN --- while the serial,
residue number and coordinates do propagate NaN. -/
theorem claim_C9_counterexample :
    (parseAtom "ATOM  ABCDE  CA  ALA AXYZW    aaaaaaaabbbbbbbbccccccccddddddeeeeee           C  ").occupancy
        = some 1 ∧
      (parseAtom "ATOM  ABCDE  CA  ALA AXYZW    aaaaaaaabbbbbbbbccccccccddddddeeeeee           C  ").tempFactor
        = some 0 ∧
      (parseAtom "ATOM  ABCDE  CA  ALA AXYZW    aaaaaaaabbbbbbbbccccccccddddddeeeeee           C  ").x
        = none ∧
      ¬(parseAtom "ATOM  ABCDE  CA  ALA AXYZW    aaaaaaaabbbbbbbbccccccccddddddeeeeee           C  ").occupancy
          = none := by
  refine ⟨by decide, by decide, by decide, by decide⟩

theorem claim_C9_witness :
    (parseAtom "ATOM  ABCDE  CA  ALA AXYZW    aaaaaaaabbbbbbbbccccccccddddddeeeeee           C  ").id
        = none ∧
      (parseAtom "ATOM  ABCDE  CA  ALA AXYZW    aaaaaaaabbbbbbbbccccccccddddddeeeeee           C  ").resSeq
        = none ∧
      (parseAtom "ATOM  ABCDE  CA  ALA AXYZW    aaaaaaaabbbbbbbbccccccccddddddeeeeee           C  ").x
        = none ∧
      (parseAtom "ATOM  ABCDE  CA  ALA AXYZW    aaaaaaaabbbbbbbbccccccccddddddeeeeee           C  ").y
        = none ∧
      (parseAtom "ATOM  ABCDE  CA  ALA AXYZW    aaaaaaaabbbbbbbbccccccccddddddeeeeee           C  ").z
        = none ∧
      (parseAtom "ATOM  ABCDE  CA  ALA AXYZW    aaaaaaaabbbbbbbbccccccccddddddeeeeee           C  ").occupancy
        = some 1 ∧
      (parseAtom "ATOM  ABCDE  CA  ALA AXYZW    aaaaaaaabbbbbbbbccccccccddddddeeeeee           C  ").tempFactor
        = some 0 :=
  claim_C9 _ (by decide) (by decide) (by decide) (by decide) (by decide)
    (by decide) (by decide)


/-! ### C3: geometric secondary-structure analysis on the straight 3.8 A chain -/


theorem len_xaxis (c : ℝ) (h : 0 ≤ c) : Vec3.len ⟨c, 0, 0⟩ = c := by
  unfold Vec3.len
  dsimp only
  rw [show c * c + 0 * 0 + 0 * 0 = c ^ 2 by ring, Real.sqrt_sq h]

theorem distance3D_xaxis (a b : ℝ) (h : a ≤ b) :
    distance3D ⟨a, 0, 0⟩ ⟨b, 0, 0⟩ = b - a := by
  unfold distance3D
  dsimp only
  rw [show (b - a) * (b - a) + (0 - 0) * (0 - 0) + (0 - 0) * (0 - 0) = (b - a) ^ 2 by
    ring, Real.sqrt_sq (by linarith)]

theorem vector3D_xaxis (a b : ℝ) : vector3D ⟨a, 0, 0⟩ ⟨b, 0, 0⟩ = ⟨b - a, 0, 0⟩ := by
  unfold vector3D
  dsimp only
  rw [Vec3.mk.injEq]
  norm_num

theorem dot_xaxis (c d : ℝ) : Vec3.dot ⟨c, 0, 0⟩ ⟨d, 0, 0⟩ = c * d := by
  unfold Vec3.dot
  dsimp only
  ring

theorem angle_xaxis_pos (c d : ℝ) (hc : 0 < c) (hd : 0 < d) :
    angleBetweenVectors ⟨c, 0, 0⟩ ⟨d, 0, 0⟩ = 0 := by
  unfold angleBetweenVectors
  rw [len_xaxis c hc.le, len_xaxis d hd.le, dot_xaxis]
  rw [if_neg (by push_neg; exact ⟨hc.ne', hd.ne'⟩)]
  rw [show c * d / (c * d) = 1 by field_simp]
  norm_num [Real.arccos_one]

theorem cross_xaxis (c d : ℝ) : Vec3.cross ⟨c, 0, 0⟩ ⟨d, 0, 0⟩ = ⟨0, 0, 0⟩ := by
  unfold Vec3.cross
  dsimp only
  rw [Vec3.mk.injEq]
  norm_num

theorem len_zero_vec : Vec3.len ⟨0, 0, 0⟩ = 0 := by
  unfold Vec3.len
  dsimp only
  rw [show (0:ℝ) * 0 + 0 * 0 + 0 * 0 = 0 by ring, Real.sqrt_zero]

theorem angle_zero_left (v : Vec3) : angleBetweenVectors ⟨0, 0, 0⟩ v = 0 := by
  unfold angleBetweenVectors
  rw [if_pos (Or.inl len_zero_vec)]

theorem torsion_xaxis (a b c d : ℝ) :
    calculateTorsionAngle ⟨a, 0, 0⟩ ⟨b, 0, 0⟩ ⟨c, 0, 0⟩ ⟨d, 0, 0⟩ = 0 := by
  unfold calculateTorsionAngle
  dsimp only
  rw [vector3D_xaxis, vector3D_xaxis, vector3D_xaxis, cross_xaxis, cross_xaxis,
    angle_zero_left]
  simp

theorem c3_ca0 : extractCAAtoms (windowSlice c3Residues 0) =
    [⟨0, 0, 0⟩, ⟨19 / 5, 0, 0⟩, ⟨38 / 5, 0, 0⟩] := rfl

theorem c3_dist3 : calculateDistances [⟨0, 0, 0⟩, ⟨19 / 5, 0, 0⟩, ⟨38 / 5, 0, 0⟩] =
    [19 / 5, 19 / 5] := by
  show [distance3D ⟨0, 0, 0⟩ ⟨19 / 5, 0, 0⟩,
    distance3D ⟨19 / 5, 0, 0⟩ ⟨38 / 5, 0, 0⟩] = [19 / 5, 19 / 5]
  rw [distance3D_xaxis 0 (19 / 5) (by norm_num),
    distance3D_xaxis (19 / 5) (38 / 5) (by norm_num)]
  norm_num

theorem c3_ang3 : calculateAngles [⟨0, 0, 0⟩, ⟨19 / 5, 0, 0⟩, ⟨38 / 5, 0, 0⟩] = [0] := by
  show [angleBetweenVectors (vector3D ⟨0, 0, 0⟩ ⟨19 / 5, 0, 0⟩)
      (vector3D ⟨19 / 5, 0, 0⟩ ⟨38 / 5, 0, 0⟩) * 180 / Real.pi] = [0]
  rw [vector3D_xaxis, vector3D_xaxis,
    angle_xaxis_pos _ _ (by norm_num) (by norm_num)]
  norm_num

theorem c3_tor3 : calculateTorsions [⟨0, 0, 0⟩, ⟨19 / 5, 0, 0⟩, ⟨38 / 5, 0, 0⟩] = [] := rfl

theorem c3_sh3 : scoreHelicalGeometry [19 / 5, 19 / 5] [0] [] = 2 / 3 := by
  unfold scoreHelicalGeometry
  norm_num

theorem c3_ss3 : scoreSheetGeometry [19 / 5, 19 / 5] [0] = 1 := by
  unfold scoreSheetGeometry
  norm_num

theorem c3_cf3 : calculateConfidence [⟨0, 0, 0⟩, ⟨19 / 5, 0, 0⟩, ⟨38 / 5, 0, 0⟩]
    [19 / 5, 19 / 5] = 3 / 5 := by
  unfold calculateConfidence
  norm_num

theorem c3_w0 : analyzeLocalGeometry (windowSlice c3Residues 0) =
    ⟨2 / 3, 1, 0, 3 / 5⟩ := by
  unfold analyzeLocalGeometry
  rw [c3_ca0]
  rw [if_neg (by norm_num)]
  dsimp only
  rw [c3_dist3, c3_ang3, c3_tor3, c3_sh3, c3_ss3, c3_cf3]
  rw [SSScore.mk.injEq]
  norm_num

theorem c3_ca1 : extractCAAtoms (windowSlice c3Residues 1) =
    [⟨0, 0, 0⟩, ⟨19 / 5, 0, 0⟩, ⟨38 / 5, 0, 0⟩, ⟨57 / 5, 0, 0⟩] := rfl

theorem c3_ca2 : extractCAAtoms (windowSlice c3Residues 2) =
    [⟨0, 0, 0⟩, ⟨19 / 5, 0, 0⟩, ⟨38 / 5, 0, 0⟩, ⟨57 / 5, 0, 0⟩, ⟨76 / 5, 0, 0⟩] := rfl

theorem c3_ca3 : extractCAAtoms (windowSlice c3Residues 3) =
    [⟨19 / 5, 0, 0⟩, ⟨38 / 5, 0, 0⟩, ⟨57 / 5, 0, 0⟩, ⟨76 / 5, 0, 0⟩] := rfl

theorem c3_ca4 : extractCAAtoms (windowSlice c3Residues 4) =
    [⟨38 / 5, 0, 0⟩, ⟨57 / 5, 0, 0⟩, ⟨76 / 5, 0, 0⟩] := rfl

theorem c3_dist4a : calculateDistances
    [⟨0, 0, 0⟩, ⟨19 / 5, 0, 0⟩, ⟨38 / 5, 0, 0⟩, ⟨57 / 5, 0, 0⟩] =
    [19 / 5, 19 / 5, 19 / 5] := by
  show [distance3D ⟨0, 0, 0⟩ ⟨19 / 5, 0, 0⟩,
    distance3D ⟨19 / 5, 0, 0⟩ ⟨38 / 5, 0, 0⟩,
    distance3D ⟨38 / 5, 0, 0⟩ ⟨57 / 5, 0, 0⟩] = _
  rw [distance3D_xaxis 0 (19 / 5) (by norm_num),
    distance3D_xaxis (19 / 5) (38 / 5) (by norm_num),
    distance3D_xaxis (38 / 5) (57 / 5) (by norm_num)]
  norm_num

theorem c3_dist5 : calculateDistances
    [⟨0, 0, 0⟩, ⟨19 / 5, 0, 0⟩, ⟨38 / 5, 0, 0⟩, ⟨57 / 5, 0, 0⟩, ⟨76 / 5, 0, 0⟩] =
    [19 / 5, 19 / 5, 19 / 5, 19 / 5] := by
  show [distance3D ⟨0, 0, 0⟩ ⟨19 / 5, 0, 0⟩,
    distance3D ⟨19 / 5, 0, 0⟩ ⟨38 / 5, 0, 0⟩,
    distance3D ⟨38 / 5, 0, 0⟩ ⟨57 / 5, 0, 0⟩,
    distance3D ⟨57 / 5, 0, 0⟩ ⟨76 / 5, 0, 0⟩] = _
  rw [distance3D_xaxis 0 (19 / 5) (by norm_num),
    distance3D_xaxis (19 / 5) (38 / 5) (by norm_num),
    distance3D_xaxis (38 / 5) (57 / 5) (by norm_num),
    distance3D_xaxis (57 / 5) (76 / 5) (by norm_num)]
  norm_num

theorem c3_dist4b : calculateDistances
    [⟨19 / 5, 0, 0⟩, ⟨38 / 5, 0, 0⟩, ⟨57 / 5, 0, 0⟩, ⟨76 / 5, 0, 0⟩] =
    [19 / 5, 19 / 5, 19 / 5] := by
  show [distance3D ⟨19 / 5, 0, 0⟩ ⟨38 / 5, 0, 0⟩,
    distance3D ⟨38 / 5, 0, 0⟩ ⟨57 / 5, 0, 0⟩,
    distance3D ⟨57 / 5, 0, 0⟩ ⟨76 / 5, 0, 0⟩] = _
  rw [distance3D_xaxis (19 / 5) (38 / 5) (by norm_num),
    distance3D_xaxis (38 / 5) (57 / 5) (by norm_num),
    distance3D_xaxis (57 / 5) (76 / 5) (by norm_num)]
  norm_num

theorem c3_dist3b : calculateDistances
    [⟨38 / 5, 0, 0⟩, ⟨57 / 5, 0, 0⟩, ⟨76 / 5, 0, 0⟩] = [19 / 5, 19 / 5] := by
  show [distance3D ⟨38 / 5, 0, 0⟩ ⟨57 / 5, 0, 0⟩,
    distance3D ⟨57 / 5, 0, 0⟩ ⟨76 / 5, 0, 0⟩] = _
  rw [distance3D_xaxis (38 / 5) (57 / 5) (by norm_num),
    distance3D_xaxis (57 / 5) (76 / 5) (by norm_num)]
  norm_num

theorem c3_ang4a : calculateAngles
    [⟨0, 0, 0⟩, ⟨19 / 5, 0, 0⟩, ⟨38 / 5, 0, 0⟩, ⟨57 / 5, 0, 0⟩] = [0, 0] := by
  show [angleBetweenVectors (vector3D ⟨0, 0, 0⟩ ⟨19 / 5, 0, 0⟩)
      (vector3D ⟨19 / 5, 0, 0⟩ ⟨38 / 5, 0, 0⟩) * 180 / Real.pi,
    angleBetweenVectors (vector3D ⟨19 / 5, 0, 0⟩ ⟨38 / 5, 0, 0⟩)
      (vector3D ⟨38 / 5, 0, 0⟩ ⟨57 / 5, 0, 0⟩) * 180 / Real.pi] = _
  simp only [vector3D_xaxis]
  rw [angle_xaxis_pos _ _ (by norm_num) (by norm_num),
    angle_xaxis_pos _ _ (by norm_num) (by norm_num)]
  norm_num

theorem c3_ang5 : calculateAngles
    [⟨0, 0, 0⟩, ⟨19 / 5, 0, 0⟩, ⟨38 / 5, 0, 0⟩, ⟨57 / 5, 0, 0⟩, ⟨76 / 5, 0, 0⟩] =
    [0, 0, 0] := by
  show [angleBetweenVectors (vector3D ⟨0, 0, 0⟩ ⟨19 / 5, 0, 0⟩)
      (vector3D ⟨19 / 5, 0, 0⟩ ⟨38 / 5, 0, 0⟩) * 180 / Real.pi,
    angleBetweenVectors (vector3D ⟨19 / 5, 0, 0⟩ ⟨38 / 5, 0, 0⟩)
      (vector3D ⟨38 / 5, 0, 0⟩ ⟨57 / 5, 0, 0⟩) * 180 / Real.pi,
    angleBetweenVectors (vector3D ⟨38 / 5, 0, 0⟩ ⟨57 / 5, 0, 0⟩)
      (vector3D ⟨57 / 5, 0, 0⟩ ⟨76 / 5, 0, 0⟩) * 180 / Real.pi] = _
  simp only [vector3D_xaxis]
  rw [angle_xaxis_pos _ _ (by norm_num) (by norm_num),
    angle_xaxis_pos _ _ (by norm_num) (by norm_num),
    angle_xaxis_pos _ _ (by norm_num) (by norm_num)]
  norm_num

theorem c3_ang4b : calculateAngles
    [⟨19 / 5, 0, 0⟩, ⟨38 / 5, 0, 0⟩, ⟨57 / 5, 0, 0⟩, ⟨76 / 5, 0, 0⟩] = [0, 0] := by
  show [angleBetweenVectors (vector3D ⟨19 / 5, 0, 0⟩ ⟨38 / 5, 0, 0⟩)
      (vector3D ⟨38 / 5, 0, 0⟩ ⟨57 / 5, 0, 0⟩) * 180 / Real.pi,
    angleBetweenVectors (vector3D ⟨38 / 5, 0, 0⟩ ⟨57 / 5, 0, 0⟩)
      (vector3D ⟨57 / 5, 0, 0⟩ ⟨76 / 5, 0, 0⟩) * 180 / Real.pi] = _
  simp only [vector3D_xaxis]
  rw [angle_xaxis_pos _ _ (by norm_num) (by norm_num),
    angle_xaxis_pos _ _ (by norm_num) (by norm_num)]
  norm_num

theorem c3_ang3b : calculateAngles
    [⟨38 / 5, 0, 0⟩, ⟨57 / 5, 0, 0⟩, ⟨76 / 5, 0, 0⟩] = [0] := by
  show [angleBetweenVectors (vector3D ⟨38 / 5, 0, 0⟩ ⟨57 / 5, 0, 0⟩)
      (vector3D ⟨57 / 5, 0, 0⟩ ⟨76 / 5, 0, 0⟩) * 180 / Real.pi] = _
  simp only [vector3D_xaxis]
  rw [angle_xaxis_pos _ _ (by norm_num) (by norm_num)]
  norm_num

theorem c3_tor4a : calculateTorsions
    [⟨0, 0, 0⟩, ⟨19 / 5, 0, 0⟩, ⟨38 / 5, 0, 0⟩, ⟨57 / 5, 0, 0⟩] = [0] := by
  show [calculateTorsionAngle ⟨0, 0, 0⟩ ⟨19 / 5, 0, 0⟩ ⟨38 / 5, 0, 0⟩
    ⟨57 / 5, 0, 0⟩] = _
  rw [torsion_xaxis]

theorem c3_tor5 : calculateTorsions
    [⟨0, 0, 0⟩, ⟨19 / 5, 0, 0⟩, ⟨38 / 5, 0, 0⟩, ⟨57 / 5, 0, 0⟩, ⟨76 / 5, 0, 0⟩] =
    [0, 0] := by
  show [calculateTorsionAngle ⟨0, 0, 0⟩ ⟨19 / 5, 0, 0⟩ ⟨38 / 5, 0, 0⟩ ⟨57 / 5, 0, 0⟩,
    calculateTorsionAngle ⟨19 / 5, 0, 0⟩ ⟨38 / 5, 0, 0⟩ ⟨57 / 5, 0, 0⟩
      ⟨76 / 5, 0, 0⟩] = _
  rw [torsion_xaxis, torsion_xaxis]

theorem c3_tor4b : calculateTorsions
    [⟨19 / 5, 0, 0⟩, ⟨38 / 5, 0, 0⟩, ⟨57 / 5, 0, 0⟩, ⟨76 / 5, 0, 0⟩] = [0] := by
  show [calculateTorsionAngle ⟨19 / 5, 0, 0⟩ ⟨38 / 5, 0, 0⟩ ⟨57 / 5, 0, 0⟩
    ⟨76 / 5, 0, 0⟩] = _
  rw [torsion_xaxis]

theorem c3_tor3b : calculateTorsions
    [⟨38 / 5, 0, 0⟩, ⟨57 / 5, 0, 0⟩, ⟨76 / 5, 0, 0⟩] = [] := rfl

theorem c3_sh4 : scoreHelicalGeometry [19 / 5, 19 / 5, 19 / 5] [0, 0] [0] = 3 / 5 := by
  unfold scoreHelicalGeometry
  norm_num

theorem c3_sh5 : scoreHelicalGeometry [19 / 5, 19 / 5, 19 / 5, 19 / 5] [0, 0, 0]
    [0, 0] = 5 / 8 := by
  unfold scoreHelicalGeometry
  norm_num

theorem c3_ss4 : scoreSheetGeometry [19 / 5, 19 / 5, 19 / 5] [0, 0] = 1 := by
  unfold scoreSheetGeometry
  norm_num

theorem c3_ss5 : scoreSheetGeometry [19 / 5, 19 / 5, 19 / 5, 19 / 5] [0, 0, 0] = 1 := by
  unfold scoreSheetGeometry
  norm_num

theorem c3_cf4 : calculateConfidence
    [⟨0, 0, 0⟩, ⟨19 / 5, 0, 0⟩, ⟨38 / 5, 0, 0⟩, ⟨57 / 5, 0, 0⟩]
    [19 / 5, 19 / 5, 19 / 5] = 4 / 5 := by
  unfold calculateConfidence
  norm_num

theorem c3_cf4b : calculateConfidence
    [⟨19 / 5, 0, 0⟩, ⟨38 / 5, 0, 0⟩, ⟨57 / 5, 0, 0⟩, ⟨76 / 5, 0, 0⟩]
    [19 / 5, 19 / 5, 19 / 5] = 4 / 5 := by
  unfold calculateConfidence
  norm_num

theorem c3_cf3b : calculateConfidence
    [⟨38 / 5, 0, 0⟩, ⟨57 / 5, 0, 0⟩, ⟨76 / 5, 0, 0⟩] [19 / 5, 19 / 5] = 3 / 5 := by
  unfold calculateConfidence
  norm_num

theorem c3_cf5 : calculateConfidence
    [⟨0, 0, 0⟩, ⟨19 / 5, 0, 0⟩, ⟨38 / 5, 0, 0⟩, ⟨57 / 5, 0, 0⟩, ⟨76 / 5, 0, 0⟩]
    [19 / 5, 19 / 5, 19 / 5, 19 / 5] = 1 := by
  unfold calculateConfidence
  norm_num

theorem c3_w1 : analyzeLocalGeometry (windowSlice c3Residues 1) =
    ⟨3 / 5, 1, 0, 4 / 5⟩ := by
  unfold analyzeLocalGeometry
  rw [c3_ca1]
  rw [if_neg (by norm_num)]
  dsimp only
  rw [c3_dist4a, c3_ang4a, c3_tor4a, c3_sh4, c3_ss4, c3_cf4]
  rw [SSScore.mk.injEq]
  norm_num

theorem c3_w2 : analyzeLocalGeometry (windowSlice c3Residues 2) =
    ⟨5 / 8, 1, 0, 1⟩ := by
  unfold analyzeLocalGeometry
  rw [c3_ca2]
  rw [if_neg (by norm_num)]
  dsimp only
  rw [c3_dist5, c3_ang5, c3_tor5, c3_sh5, c3_ss5, c3_cf5]
  rw [SSScore.mk.injEq]
  norm_num

theorem c3_w3 : analyzeLocalGeometry (windowSlice c3Residues 3) =
    ⟨3 / 5, 1, 0, 4 / 5⟩ := by
  unfold analyzeLocalGeometry
  rw [c3_ca3]
  rw [if_neg (by norm_num)]
  dsimp only
  rw [c3_dist4b, c3_ang4b, c3_tor4b, c3_sh4, c3_ss4, c3_cf4b]
  rw [SSScore.mk.injEq]
  norm_num

theorem c3_w4 : analyzeLocalGeometry (windowSlice c3Residues 4) =
    ⟨2 / 3, 1, 0, 3 / 5⟩ := by
  unfold analyzeLocalGeometry
  rw [c3_ca4]
  rw [if_neg (by norm_num)]
  dsimp only
  rw [c3_dist3b, c3_ang3b, c3_tor3b, c3_sh3, c3_ss3, c3_cf3b]
  rw [SSScore.mk.injEq]
  norm_num

theorem c3_scores : calculateGeometryScores c3Residues =
    [⟨2 / 3, 1, 0, 3 / 5⟩, ⟨3 / 5, 1, 0, 4 / 5⟩, ⟨5 / 8, 1, 0, 1⟩,
     ⟨3 / 5, 1, 0, 4 / 5⟩, ⟨2 / 3, 1, 0, 3 / 5⟩] := by
  rw [show calculateGeometryScores c3Residues =
    [analyzeLocalGeometry (windowSlice c3Residues 0),
     analyzeLocalGeometry (windowSlice c3Residues 1),
     analyzeLocalGeometry (windowSlice c3Residues 2),
     analyzeLocalGeometry (windowSlice c3Residues 3),
     analyzeLocalGeometry (windowSlice c3Residues 4)] from rfl]
  rw [c3_w0, c3_w1, c3_w2, c3_w3, c3_w4]

theorem c3_labels_raw : applyGeometryAssignments (calculateGeometryScores c3Residues) =
    List.replicate 5 Label.sheet := by
  rw [c3_scores]
  unfold applyGeometryAssignments
  simp only [List.map_cons, List.map_nil]
  norm_num [List.replicate]

theorem c3_final : analyzeChainLabels c3Residues = List.replicate 5 Label.sheet := by
  unfold analyzeChainLabels
  rw [if_neg (by decide), c3_labels_raw]
  decide

/-- **C3.** For the 5-residue chain whose CA atoms are colinear and spaced
exactly 3.8 Å apart, the geometric pass classifies no residue as helix,
every window passes the sheet extended-conformation test (average CA-CA
distance at least 3.3 Å), and after smoothing every residue is labeled
sheet. -/
theorem claim_C3 :
    Label.helix ∉ applyGeometryAssignments (calculateGeometryScores c3Residues) ∧
    (∀ i, i < 5 →
      (3.3 : ℝ) ≤
        (calculateDistances (extractCAAtoms (windowSlice c3Residues i))).sum /
          ((calculateDistances (extractCAAtoms (windowSlice c3Residues i))).length :
            ℝ)) ∧
    analyzeChainLabels c3Residues = List.replicate 5 Label.sheet := by
  refine ⟨?_, ?_, c3_final⟩
  · rw [c3_labels_raw]
    decide
  · intro i hi
    interval_cases i
    · rw [c3_ca0, c3_dist3]
      norm_num
    · rw [c3_ca1, c3_dist4a]
      norm_num
    · rw [c3_ca2, c3_dist5]
      norm_num
    · rw [c3_ca3, c3_dist4b]
      norm_num
    · rw [c3_ca4, c3_dist3b]
      norm_num

/-- Witness instantiating the universally quantified sheet-distance part of
C3 at the middle window. -/
theorem claim_C3_witness :
    (2 : Nat) < 5 ∧
    (3.3 : ℝ) ≤
      (calculateDistances (extractCAAtoms (windowSlice c3Residues 2))).sum /
        ((calculateDistances (extractCAAtoms (windowSlice c3Residues 2))).length :
          ℝ) :=
  ⟨by norm_num, claim_C3.2.1 2 (by norm_num)⟩



/-! ### C6: Frenet frame orthonormality -/
theorem vec_sub_eq_zero_iff (a b : Vec3) : Vec3.sub a b = ⟨0, 0, 0⟩ ↔ a = b := by
  obtain ⟨ax, ay, az⟩ := a
  obtain ⟨bx, by', bz⟩ := b
  unfold Vec3.sub
  dsimp only
  rw [Vec3.mk.injEq, Vec3.mk.injEq]
  constructor
  · rintro ⟨h1, h2, h3⟩
    exact ⟨by linarith, by linarith, by linarith⟩
  · rintro ⟨h1, h2, h3⟩
    exact ⟨by linarith, by linarith, by linarith⟩

theorem vlen_nonneg (v : Vec3) : 0 ≤ v.len := Real.sqrt_nonneg _

theorem vlen_sq (v : Vec3) : v.len ^ 2 = v.x * v.x + v.y * v.y + v.z * v.z :=
  Real.sq_sqrt (add_nonneg (add_nonneg (mul_self_nonneg _) (mul_self_nonneg _))
    (mul_self_nonneg _))

theorem vlen_eq_zero_iff (v : Vec3) : v.len = 0 ↔ v = ⟨0, 0, 0⟩ := by
  obtain ⟨x, y, z⟩ := v
  unfold Vec3.len
  dsimp only
  rw [Vec3.mk.injEq]
  constructor
  · intro h
    have hs : x * x + y * y + z * z = 0 := by
      have h0 : 0 ≤ x * x + y * y + z * z :=
        add_nonneg (add_nonneg (mul_self_nonneg _) (mul_self_nonneg _))
          (mul_self_nonneg _)
      exact (Real.sqrt_eq_zero h0).mp h
    refine ⟨?_, ?_, ?_⟩ <;> nlinarith [sq_nonneg x, sq_nonneg y, sq_nonneg z]
  · rintro ⟨h1, h2, h3⟩
    subst h1; subst h2; subst h3
    rw [show (0:ℝ) * 0 + 0 * 0 + 0 * 0 = 0 by ring, Real.sqrt_zero]

theorem vlen_pos (v : Vec3) (h : v ≠ ⟨0, 0, 0⟩) : 0 < v.len :=
  lt_of_le_of_ne (vlen_nonneg v) fun h0 => h ((vlen_eq_zero_iff v).mp h0.symm)

theorem vlen_scale (v : Vec3) (s : ℝ) : (v.scale s).len = |s| * v.len := by
  obtain ⟨x, y, z⟩ := v
  unfold Vec3.scale Vec3.len
  dsimp only
  rw [show x * s * (x * s) + y * s * (y * s) + z * s * (z * s) =
    s ^ 2 * (x * x + y * y + z * z) by ring,
    Real.sqrt_mul (sq_nonneg s), Real.sqrt_sq_eq_abs]

theorem bNormalize_eq_scale (v : Vec3) (h : v ≠ ⟨0, 0, 0⟩) :
    Vec3.bNormalize v = v.scale (1 / v.len) := by
  unfold Vec3.bNormalize
  rw [if_neg (fun h0 => h ((vlen_eq_zero_iff v).mp h0))]

theorem bNormalize_len (v : Vec3) (h : v ≠ ⟨0, 0, 0⟩) :
    (Vec3.bNormalize v).len = 1 := by
  rw [bNormalize_eq_scale v h, vlen_scale]
  have hp := vlen_pos v h
  rw [abs_of_pos (by positivity)]
  field_simp

theorem bNormalize_zero : Vec3.bNormalize ⟨0, 0, 0⟩ = ⟨0, 0, 0⟩ := by
  unfold Vec3.bNormalize
  rw [if_pos len_zero_vec]

theorem ne_zero_of_vlen_one (v : Vec3) (h : v.len = 1) : v ≠ ⟨0, 0, 0⟩ := by
  intro h0
  rw [h0, len_zero_vec] at h
  norm_num at h

theorem vdot_comm (a b : Vec3) : Vec3.dot a b = Vec3.dot b a := by
  unfold Vec3.dot
  ring

theorem vdot_scale_right (a b : Vec3) (s : ℝ) :
    Vec3.dot a (b.scale s) = s * Vec3.dot a b := by
  unfold Vec3.dot Vec3.scale
  dsimp only
  ring

theorem vcross_scale_right (a b : Vec3) (s : ℝ) :
    Vec3.cross a (b.scale s) = (Vec3.cross a b).scale s := by
  unfold Vec3.cross Vec3.scale
  dsimp only
  rw [Vec3.mk.injEq]
  refine ⟨by ring, by ring, by ring⟩

theorem vscale_ne_zero (v : Vec3) (s : ℝ) (hs : s ≠ 0) (hv : v ≠ ⟨0, 0, 0⟩) :
    v.scale s ≠ ⟨0, 0, 0⟩ := by
  obtain ⟨x, y, z⟩ := v
  unfold Vec3.scale
  dsimp only
  intro h
  rw [Vec3.mk.injEq] at h
  obtain ⟨h1, h2, h3⟩ := h
  apply hv
  rw [Vec3.mk.injEq]
  exact ⟨by rcases mul_eq_zero.mp h1 with h | h; exact h; exact absurd h hs,
    by rcases mul_eq_zero.mp h2 with h | h; exact h; exact absurd h hs,
    by rcases mul_eq_zero.mp h3 with h | h; exact h; exact absurd h hs⟩

theorem vdot_cross_self_left (a b : Vec3) : Vec3.dot a (Vec3.cross a b) = 0 := by
  unfold Vec3.dot Vec3.cross
  dsimp only
  ring

theorem vdot_cross_self_right (a b : Vec3) : Vec3.dot b (Vec3.cross a b) = 0 := by
  unfold Vec3.dot Vec3.cross
  dsimp only
  ring

theorem vdot_cross_left_self (a b : Vec3) : Vec3.dot (Vec3.cross a b) a = 0 := by
  rw [vdot_comm]
  exact vdot_cross_self_left a b

theorem vdot_cross_right_self (a b : Vec3) : Vec3.dot (Vec3.cross a b) b = 0 := by
  rw [vdot_comm]
  exact vdot_cross_self_right a b

theorem vlen_cross_unit (a b : Vec3) (ha : a.len = 1) (hb : b.len = 1)
    (hab : Vec3.dot a b = 0) : (Vec3.cross a b).len = 1 := by
  have hqa : a.x * a.x + a.y * a.y + a.z * a.z = 1 := by
    have := vlen_sq a
    rw [ha] at this
    linarith [this]
  have hqb : b.x * b.x + b.y * b.y + b.z * b.z = 1 := by
    have := vlen_sq b
    rw [hb] at this
    linarith [this]
  have hd : a.x * b.x + a.y * b.y + a.z * b.z = 0 := hab
  unfold Vec3.cross Vec3.len
  dsimp only
  rw [show (a.y * b.z - a.z * b.y) * (a.y * b.z - a.z * b.y) +
      (a.z * b.x - a.x * b.z) * (a.z * b.x - a.x * b.z) +
      (a.x * b.y - a.y * b.x) * (a.x * b.y - a.y * b.x) =
      (a.x * a.x + a.y * a.y + a.z * a.z) * (b.x * b.x + b.y * b.y + b.z * b.z) -
        (a.x * b.x + a.y * b.y + a.z * b.z) ^ 2 by ring,
    hqa, hqb, hd]
  norm_num

theorem getPerp_spec (v : Vec3) (hv : v ≠ ⟨0, 0, 0⟩) :
    (getPerpendicularVector v).len = 1 ∧
    Vec3.dot v (getPerpendicularVector v) = 0 := by
  obtain ⟨x, y, z⟩ := v
  unfold getPerpendicularVector
  split_ifs with h1 h2
  · have hc : Vec3.cross ⟨x, y, z⟩ ⟨1, 0, 0⟩ = ⟨0, z, -y⟩ := by
      unfold Vec3.cross
      dsimp only
      rw [Vec3.mk.injEq]
      refine ⟨by ring, by ring, by ring⟩
    have hne : (⟨0, z, -y⟩ : Vec3) ≠ ⟨0, 0, 0⟩ := by
      intro h
      rw [Vec3.mk.injEq] at h
      obtain ⟨-, hz, hy⟩ := h
      have hy0 : y = 0 := by linarith [hy]
      have hx0 : x = 0 := by
        have hle := h1.1
        rw [hy0] at hle
        simpa using abs_nonpos_iff.mp (by simpa using hle)
      exact hv (by rw [Vec3.mk.injEq]; exact ⟨hx0, hy0, hz⟩)
    rw [hc]
    refine ⟨bNormalize_len _ hne, ?_⟩
    rw [bNormalize_eq_scale _ hne, vdot_scale_right,
      show Vec3.dot ⟨x, y, z⟩ ⟨0, z, -y⟩ = 0 from by unfold Vec3.dot; dsimp only; ring,
      mul_zero]
  · have hc : Vec3.cross ⟨x, y, z⟩ ⟨0, 1, 0⟩ = ⟨-z, 0, x⟩ := by
      unfold Vec3.cross
      dsimp only
      rw [Vec3.mk.injEq]
      refine ⟨by ring, by ring, by ring⟩
    have hne : (⟨-z, 0, x⟩ : Vec3) ≠ ⟨0, 0, 0⟩ := by
      intro h
      rw [Vec3.mk.injEq] at h
      obtain ⟨hz, -, hx⟩ := h
      have hz0 : z = 0 := by linarith [hz]
      exact h1 ⟨by rw [hx]; simp, by rw [hx, hz0]⟩
    rw [hc]
    refine ⟨bNormalize_len _ hne, ?_⟩
    rw [bNormalize_eq_scale _ hne, vdot_scale_right,
      show Vec3.dot ⟨x, y, z⟩ ⟨-z, 0, x⟩ = 0 from by unfold Vec3.dot; dsimp only; ring,
      mul_zero]
  · have hc : Vec3.cross ⟨x, y, z⟩ ⟨0, 0, 1⟩ = ⟨y, -x, 0⟩ := by
      unfold Vec3.cross
      dsimp only
      rw [Vec3.mk.injEq]
      refine ⟨by ring, by ring, by ring⟩
    have hne : (⟨y, -x, 0⟩ : Vec3) ≠ ⟨0, 0, 0⟩ := by
      intro h
      rw [Vec3.mk.injEq] at h
      obtain ⟨hy, hx, -⟩ := h
      have hx0 : x = 0 := by linarith [hx]
      exact h2 (by rw [hy]; simp)
    rw [hc]
    refine ⟨bNormalize_len _ hne, ?_⟩
    rw [bNormalize_eq_scale _ hne, vdot_scale_right,
      show Vec3.dot ⟨x, y, z⟩ ⟨y, -x, 0⟩ = 0 from by unfold Vec3.dot; dsimp only; ring,
      mul_zero]

theorem frame_core (tg N : Vec3) (hT : tg.len = 1)
    (hC : Vec3.cross tg N ≠ ⟨0, 0, 0⟩) :
    (Vec3.bNormalize (Vec3.cross tg N)).len = 1 ∧
    (Vec3.bNormalize
      (Vec3.cross (Vec3.bNormalize (Vec3.cross tg N)) tg)).len = 1 ∧
    Vec3.dot tg
      (Vec3.bNormalize (Vec3.cross (Vec3.bNormalize (Vec3.cross tg N)) tg)) = 0 ∧
    Vec3.dot tg (Vec3.bNormalize (Vec3.cross tg N)) = 0 ∧
    Vec3.dot (Vec3.bNormalize (Vec3.cross (Vec3.bNormalize (Vec3.cross tg N)) tg))
      (Vec3.bNormalize (Vec3.cross tg N)) = 0 := by
  have hB : (Vec3.bNormalize (Vec3.cross tg N)).len = 1 := bNormalize_len _ hC
  have hTB : Vec3.dot tg (Vec3.bNormalize (Vec3.cross tg N)) = 0 := by
    rw [bNormalize_eq_scale _ hC, vdot_scale_right, vdot_cross_self_left, mul_zero]
  have hBT : Vec3.dot (Vec3.bNormalize (Vec3.cross tg N)) tg = 0 := by
    rw [vdot_comm]
    exact hTB
  have hCBT : (Vec3.cross (Vec3.bNormalize (Vec3.cross tg N)) tg).len = 1 :=
    vlen_cross_unit _ _ hB hT hBT
  have hCBTne := ne_zero_of_vlen_one _ hCBT
  have hN2 : (Vec3.bNormalize
      (Vec3.cross (Vec3.bNormalize (Vec3.cross tg N)) tg)).len = 1 :=
    bNormalize_len _ hCBTne
  refine ⟨hB, hN2, ?_, hTB, ?_⟩
  · rw [bNormalize_eq_scale _ hCBTne, vdot_scale_right, vdot_cross_self_right,
      mul_zero]
  · rw [bNormalize_eq_scale _ hCBTne, vdot_comm, vdot_scale_right, vdot_comm,
      vdot_cross_left_self, mul_zero]

/-- **C6 (amended).** For a curve with at least 4 control points, a nonzero
finite-difference tangent, and a raw normal difference that is either below
the 0.001 fallback threshold or not parallel to the tangent, the Frenet
frame returned by `getFrenetFrameAt` has tangent, normal, and binormal of
unit length within 1e-5 and pairwise dot products zero within 1e-3 (in
fact exactly unit and exactly orthogonal). -/
theorem claim_C6 (cps : List Vec3) (t : ℝ)
    (_h4 : 4 ≤ cps.length)
    (hd : getPointAt cps (min 1 (t + 0.001)) ≠ getPointAt cps (max 0 (t - 0.001)))
    (hn : (Vec3.sub (getTangentAt cps (min 1 (t + 0.001)))
        (getTangentAt cps (max 0 (t - 0.001)))).len < 0.001 ∨
      Vec3.cross (getTangentAt cps t)
        (Vec3.sub (getTangentAt cps (min 1 (t + 0.001)))
          (getTangentAt cps (max 0 (t - 0.001)))) ≠ ⟨0, 0, 0⟩) :
    |(getFrenetFrameAt cps t).tangent.len - 1| ≤ 1e-5 ∧
    |(getFrenetFrameAt cps t).normal.len - 1| ≤ 1e-5 ∧
    |(getFrenetFrameAt cps t).binormal.len - 1| ≤ 1e-5 ∧
    |Vec3.dot (getFrenetFrameAt cps t).tangent (getFrenetFrameAt cps t).normal| ≤
      1e-3 ∧
    |Vec3.dot (getFrenetFrameAt cps t).tangent (getFrenetFrameAt cps t).binormal| ≤
      1e-3 ∧
    |Vec3.dot (getFrenetFrameAt cps t).normal (getFrenetFrameAt cps t).binormal| ≤
      1e-3 := by
  have htg : (getTangentAt cps t).len = 1 := by
    unfold getTangentAt
    dsimp only
    apply bNormalize_len
    intro h
    exact hd ((vec_sub_eq_zero_iff _ _).mp h)
  have htgne : getTangentAt cps t ≠ ⟨0, 0, 0⟩ := ne_zero_of_vlen_one _ htg
  have hfde : getFrenetFrameAt cps t = FFrame.mk (getPointAt cps t)
      (getTangentAt cps t)
      (Vec3.bNormalize (Vec3.cross (Vec3.bNormalize (Vec3.cross (getTangentAt cps t)
        (if (Vec3.sub (getTangentAt cps (min 1 (t + 0.001)))
            (getTangentAt cps (max 0 (t - 0.001)))).len < 0.001 then
          getPerpendicularVector (getTangentAt cps t)
        else
          Vec3.bNormalize (Vec3.sub (getTangentAt cps (min 1 (t + 0.001)))
            (getTangentAt cps (max 0 (t - 0.001)))))))
        (getTangentAt cps t)))
      (Vec3.bNormalize (Vec3.cross (getTangentAt cps t)
        (if (Vec3.sub (getTangentAt cps (min 1 (t + 0.001)))
            (getTangentAt cps (max 0 (t - 0.001)))).len < 0.001 then
          getPerpendicularVector (getTangentAt cps t)
        else
          Vec3.bNormalize (Vec3.sub (getTangentAt cps (min 1 (t + 0.001)))
            (getTangentAt cps (max 0 (t - 0.001))))))) := rfl
  have hC : Vec3.cross (getTangentAt cps t)
      (if (Vec3.sub (getTangentAt cps (min 1 (t + 0.001)))
          (getTangentAt cps (max 0 (t - 0.001)))).len < 0.001 then
        getPerpendicularVector (getTangentAt cps t)
      else
        Vec3.bNormalize (Vec3.sub (getTangentAt cps (min 1 (t + 0.001)))
          (getTangentAt cps (max 0 (t - 0.001))))) ≠ ⟨0, 0, 0⟩ := by
    by_cases hL : (Vec3.sub (getTangentAt cps (min 1 (t + 0.001)))
        (getTangentAt cps (max 0 (t - 0.001)))).len < 0.001
    · rw [if_pos hL]
      obtain ⟨hplen, hpdot⟩ := getPerp_spec _ htgne
      exact ne_zero_of_vlen_one _ (vlen_cross_unit _ _ htg hplen hpdot)
    · rw [if_neg hL]
      have hrawne : Vec3.sub (getTangentAt cps (min 1 (t + 0.001)))
          (getTangentAt cps (max 0 (t - 0.001))) ≠ ⟨0, 0, 0⟩ := by
        intro h0
        apply hL
        rw [h0, len_zero_vec]
        norm_num
      rw [bNormalize_eq_scale _ hrawne, vcross_scale_right]
      exact vscale_ne_zero _ _ (one_div_ne_zero (ne_of_gt (vlen_pos _ hrawne)))
        (hn.resolve_left hL)
  obtain ⟨hB, hN2, hTN2, hTB, hN2B⟩ := frame_core (getTangentAt cps t) _ htg hC
  rw [hfde]
  dsimp only
  rw [htg, hB, hN2, hTN2, hTB, hN2B]
  norm_num

theorem getPointAt_four (p0 p1 p2 p3 : Vec3) (t : ℝ) (h0 : 0 ≤ t) (h1 : t < 1) :
    getPointAt [p0, p1, p2, p3] t = evaluateBSpline p0 p1 p2 p3 t := by
  have hlen : ([p0, p1, p2, p3] : List Vec3).length = 4 := rfl
  have hclamp : clampT t = t := by
    unfold clampT
    rw [min_eq_right h1.le, max_eq_right h0]
  have hspan : spanOf 4 t = 0 := by
    unfold spanOf
    rw [hclamp]
    rw [show ((4 : ℕ) : ℝ) - 3 = 1 by norm_num, mul_one]
    exact Int.floor_eq_zero_iff.mpr ⟨h0, h1⟩
  have hsi : spanStartIndex 4 t = 0 := by
    unfold spanStartIndex
    rw [hspan]
    norm_num
  unfold getPointAt
  rw [if_neg (by rw [hlen]; norm_num)]
  dsimp only
  rw [hlen, hsi, hclamp, hspan]
  rw [show ((4 : ℕ) : ℝ) - 3 = 1 by norm_num, mul_one]
  rw [show t - ((0 : ℤ) : ℝ) = t by norm_num]
  rfl

theorem c6Curve_eval (t : ℝ) (h0 : 0 ≤ t) (h1 : t < 1) :
    getPointAt c6Curve t = ⟨t - 1000 / 1001 * t ^ 2, 0, 0⟩ := by
  show getPointAt [⟨-5003 / 3003, 0, 0⟩, ⟨1000 / 3003, 0, 0⟩, ⟨1003 / 3003, 0, 0⟩,
    ⟨-4994 / 3003, 0, 0⟩] t = _
  rw [getPointAt_four _ _ _ _ t h0 h1]
  unfold evaluateBSpline
  dsimp only
  unfold Vec3.add Vec3.scale
  dsimp only
  rw [Vec3.mk.injEq]
  refine ⟨by ring, by ring, by ring⟩

theorem c6Line_eval (t : ℝ) (h0 : 0 ≤ t) (h1 : t < 1) :
    getPointAt c6Line t = ⟨1 + t, 0, 0⟩ := by
  show getPointAt [⟨0, 0, 0⟩, ⟨1, 0, 0⟩, ⟨2, 0, 0⟩, ⟨3, 0, 0⟩] t = _
  rw [getPointAt_four _ _ _ _ t h0 h1]
  unfold evaluateBSpline
  dsimp only
  unfold Vec3.add Vec3.scale
  dsimp only
  rw [Vec3.mk.injEq]
  refine ⟨by ring, by ring, by ring⟩

theorem vsub_xaxis (a b : ℝ) : Vec3.sub ⟨a, 0, 0⟩ ⟨b, 0, 0⟩ = ⟨a - b, 0, 0⟩ := by
  unfold Vec3.sub
  dsimp only
  rw [Vec3.mk.injEq]
  norm_num

theorem bNormalize_xpos (c : ℝ) (h : 0 < c) :
    Vec3.bNormalize ⟨c, 0, 0⟩ = ⟨1, 0, 0⟩ := by
  have hne : (⟨c, 0, 0⟩ : Vec3) ≠ ⟨0, 0, 0⟩ := by
    intro h0
    rw [Vec3.mk.injEq] at h0
    exact absurd h0.1 (ne_of_gt h)
  rw [bNormalize_eq_scale _ hne]
  unfold Vec3.scale
  dsimp only
  rw [len_xaxis c h.le, Vec3.mk.injEq]
  refine ⟨by field_simp, by ring, by ring⟩

theorem bNormalize_xneg (c : ℝ) (h : c < 0) :
    Vec3.bNormalize ⟨c, 0, 0⟩ = ⟨-1, 0, 0⟩ := by
  have hne : (⟨c, 0, 0⟩ : Vec3) ≠ ⟨0, 0, 0⟩ := by
    intro h0
    rw [Vec3.mk.injEq] at h0
    exact absurd h0.1 (ne_of_lt h)
  have hlen : Vec3.len ⟨c, 0, 0⟩ = -c := by
    unfold Vec3.len
    dsimp only
    rw [show c * c + 0 * 0 + 0 * 0 = (-c) ^ 2 by ring,
      Real.sqrt_sq (by linarith)]
  rw [bNormalize_eq_scale _ hne]
  unfold Vec3.scale
  dsimp only
  rw [hlen, Vec3.mk.injEq]
  have hc : c ≠ 0 := ne_of_lt h
  refine ⟨by field_simp, by ring, by ring⟩

theorem c6_tan_mid : getTangentAt c6Curve (1 / 2) = ⟨1, 0, 0⟩ := by
  unfold getTangentAt
  dsimp only
  rw [show max 0 ((1 : ℝ) / 2 - 0.001) = 0.499 by norm_num,
    show min 1 ((1 : ℝ) / 2 + 0.001) = 0.501 by norm_num,
    c6Curve_eval 0.501 (by norm_num) (by norm_num),
    c6Curve_eval 0.499 (by norm_num) (by norm_num),
    vsub_xaxis]
  rw [bNormalize_xpos _ (by norm_num)]

theorem c6_tan_left : getTangentAt c6Curve 0.499 = ⟨1, 0, 0⟩ := by
  unfold getTangentAt
  dsimp only
  rw [show max 0 ((0.499 : ℝ) - 0.001) = 0.498 by norm_num,
    show min 1 ((0.499 : ℝ) + 0.001) = 0.5 by norm_num,
    c6Curve_eval 0.5 (by norm_num) (by norm_num),
    c6Curve_eval 0.498 (by norm_num) (by norm_num),
    vsub_xaxis]
  rw [bNormalize_xpos _ (by norm_num)]

theorem c6_tan_right : getTangentAt c6Curve 0.501 = ⟨-1, 0, 0⟩ := by
  unfold getTangentAt
  dsimp only
  rw [show max 0 ((0.501 : ℝ) - 0.001) = 0.5 by norm_num,
    show min 1 ((0.501 : ℝ) + 0.001) = 0.502 by norm_num,
    c6Curve_eval 0.502 (by norm_num) (by norm_num),
    c6Curve_eval 0.5 (by norm_num) (by norm_num),
    vsub_xaxis]
  rw [bNormalize_xneg _ (by norm_num)]

theorem c6_frame : getFrenetFrameAt c6Curve (1 / 2) =
    ⟨getPointAt c6Curve (1 / 2), ⟨1, 0, 0⟩, ⟨0, 0, 0⟩, ⟨0, 0, 0⟩⟩ := by
  unfold getFrenetFrameAt
  dsimp only
  rw [show max 0 ((1 : ℝ) / 2 - 0.001) = 0.499 by norm_num,
    show min 1 ((1 : ℝ) / 2 + 0.001) = 0.501 by norm_num,
    c6_tan_mid, c6_tan_left, c6_tan_right, vsub_xaxis,
    show (-1 : ℝ) - 1 = -2 by norm_num]
  rw [show Vec3.len ⟨(-2 : ℝ), 0, 0⟩ = 2 from by
    unfold Vec3.len
    dsimp only
    rw [show (-2 : ℝ) * -2 + 0 * 0 + 0 * 0 = 2 ^ 2 by ring,
      Real.sqrt_sq (by norm_num)]]
  rw [if_neg (by norm_num)]
  rw [bNormalize_xneg _ (by norm_num), cross_xaxis, bNormalize_zero]
  rw [show Vec3.cross ⟨0, 0, 0⟩ ⟨1, 0, 0⟩ = (⟨0, 0, 0⟩ : Vec3) from by
    unfold Vec3.cross
    dsimp only
    rw [Vec3.mk.injEq]
    norm_num]
  rw [bNormalize_zero]

/-- **C6 counterexample.** The 4-control-point curve `c6Curve` has a
nonzero finite-difference tangent at `t = 1/2`, yet the raw normal
difference there is anti-parallel to the tangent, so the binormal
`normalize(tangent x normal)` is the zero vector and its length violates
the claimed `1 ± 1e-5` tolerance. -/
theorem claim_C6_counterexample :
    4 ≤ c6Curve.length ∧
    getPointAt c6Curve (min 1 ((1 : ℝ) / 2 + 0.001)) ≠
      getPointAt c6Curve (max 0 ((1 : ℝ) / 2 - 0.001)) ∧
    (getFrenetFrameAt c6Curve (1 / 2)).binormal = ⟨0, 0, 0⟩ ∧
    ¬ |(getFrenetFrameAt c6Curve (1 / 2)).binormal.len - 1| ≤ 1e-5 := by
  refine ⟨by decide, ?_, ?_, ?_⟩
  · rw [show min 1 ((1 : ℝ) / 2 + 0.001) = 0.501 by norm_num,
      show max 0 ((1 : ℝ) / 2 - 0.001) = 0.499 by norm_num,
      c6Curve_eval 0.501 (by norm_num) (by norm_num),
      c6Curve_eval 0.499 (by norm_num) (by norm_num)]
    intro h
    rw [Vec3.mk.injEq] at h
    have h1 := h.1
    norm_num at h1
  · rw [c6_frame]
  · rw [c6_frame]
    dsimp only
    rw [len_zero_vec]
    norm_num

theorem c6Line_hd : getPointAt c6Line (min 1 ((1 : ℝ) / 2 + 0.001)) ≠
    getPointAt c6Line (max 0 ((1 : ℝ) / 2 - 0.001)) := by
  rw [show min 1 ((1 : ℝ) / 2 + 0.001) = 0.501 by norm_num,
    show max 0 ((1 : ℝ) / 2 - 0.001) = 0.499 by norm_num,
    c6Line_eval 0.501 (by norm_num) (by norm_num),
    c6Line_eval 0.499 (by norm_num) (by norm_num)]
  intro h
  rw [Vec3.mk.injEq] at h
  have h1 := h.1
  norm_num at h1

theorem c6Line_tan_left : getTangentAt c6Line 0.499 = ⟨1, 0, 0⟩ := by
  unfold getTangentAt
  dsimp only
  rw [show max 0 ((0.499 : ℝ) - 0.001) = 0.498 by norm_num,
    show min 1 ((0.499 : ℝ) + 0.001) = 0.5 by norm_num,
    c6Line_eval 0.5 (by norm_num) (by norm_num),
    c6Line_eval 0.498 (by norm_num) (by norm_num),
    vsub_xaxis]
  rw [bNormalize_xpos _ (by norm_num)]

theorem c6Line_tan_right : getTangentAt c6Line 0.501 = ⟨1, 0, 0⟩ := by
  unfold getTangentAt
  dsimp only
  rw [show max 0 ((0.501 : ℝ) - 0.001) = 0.5 by norm_num,
    show min 1 ((0.501 : ℝ) + 0.001) = 0.502 by norm_num,
    c6Line_eval 0.502 (by norm_num) (by norm_num),
    c6Line_eval 0.5 (by norm_num) (by norm_num),
    vsub_xaxis]
  rw [bNormalize_xpos _ (by norm_num)]

theorem c6Line_hn : (Vec3.sub (getTangentAt c6Line (min 1 ((1 : ℝ) / 2 + 0.001)))
    (getTangentAt c6Line (max 0 ((1 : ℝ) / 2 - 0.001)))).len < 0.001 := by
  rw [show min 1 ((1 : ℝ) / 2 + 0.001) = 0.501 by norm_num,
    show max 0 ((1 : ℝ) / 2 - 0.001) = 0.499 by norm_num,
    c6Line_tan_right, c6Line_tan_left, vsub_xaxis,
    show (1 : ℝ) - 1 = 0 by norm_num, len_zero_vec]
  norm_num

/-- Witness for C6: the straight 4-point curve `c6Line` at `t = 1/2`
satisfies all the hypotheses (the raw normal difference vanishes, so the
perpendicular fallback is taken) and the frame obeys every tolerance. -/
theorem claim_C6_witness :
    (4 ≤ c6Line.length ∧
      getPointAt c6Line (min 1 ((1 : ℝ) / 2 + 0.001)) ≠
        getPointAt c6Line (max 0 ((1 : ℝ) / 2 - 0.001))) ∧
    |(getFrenetFrameAt c6Line (1 / 2)).tangent.len - 1| ≤ 1e-5 ∧
    |(getFrenetFrameAt c6Line (1 / 2)).normal.len - 1| ≤ 1e-5 ∧
    |(getFrenetFrameAt c6Line (1 / 2)).binormal.len - 1| ≤ 1e-5 ∧
    |Vec3.dot (getFrenetFrameAt c6Line (1 / 2)).tangent
      (getFrenetFrameAt c6Line (1 / 2)).normal| ≤ 1e-3 ∧
    |Vec3.dot (getFrenetFrameAt c6Line (1 / 2)).tangent
      (getFrenetFrameAt c6Line (1 / 2)).binormal| ≤ 1e-3 ∧
    |Vec3.dot (getFrenetFrameAt c6Line (1 / 2)).normal
      (getFrenetFrameAt c6Line (1 / 2)).binormal| ≤ 1e-3 :=
  ⟨⟨by decide, c6Line_hd⟩,
    claim_C6 c6Line (1 / 2) (by decide) c6Line_hd (Or.inl c6Line_hn)⟩

end Smol2
